import Mathlib

/-!
Verification of the solana_transactions_tracker core against its
natural-language specification.

Shallow embedding of the repository's Python sources:
  * `Transaction.py`  — transaction extraction and classification,
  * `Slot.py`         — slot model and its tabular form,
  * `SolanaTransactionsCounter.py` — the aggregation engine (pandas pipeline),
  * `SolanaChain.py`  — the chain ledger (slot dedup, batch counter, table),
  * `SolanaChainExplorer.py` — the discovery loops (explore_chain, update_slots).

Pandas data frames are modelled as lists of rows; a count table carries an
explicit column-name list so that pandas KeyError behaviour (reading a column
that does not exist) is representable.  Python exceptions are modelled with an
explicit error type threaded through the functions; loops of the explorer are
fuel-indexed (an outcome of `none` means the loop was still running after the
given number of steps).  The bookkeeping column pandas adds via reset_index
(named index) is dropped by the source right after each merge and before any
numeric use, so it is omitted from the model.
-/

set_option maxRecDepth 4000

deriving instance DecidableEq for Except

namespace SolTrack

/-- Errors raised by the Python code: RuntimeError for an uninitialized table,
KeyError for a missing data-frame column, and the malformed-record failure of
transaction extraction (missing signature). -/
inductive RunError where
  | notInitialized : RunError
  | keyErr : String → RunError
  | malformedRecord : RunError
deriving DecidableEq

/-- One row of the transaction-level data frame built by Slot.to_df:
(Slot_Number, Slot_Timestamp, Batch_Number, TX_Signature, TX_Status, TX_Type). -/
structure TxRow where
  slotNumber : Int
  slotTimestamp : Int
  batchNumber : Option Int
  signature : String
  status : String
  type_ : String
deriving DecidableEq

/-- A transaction-level row together with its batch key
(Min_Slot_Timestamp, Max_Slot_Number), as attached by prepare_df. -/
structure PRow where
  key : Int × Int
  row : TxRow
deriving DecidableEq

/-- A count table: pandas data frame keyed by
(Min_Slot_Timestamp, Max_Slot_Number); `cols` is the explicit list of non-key
column names and each row stores one optional value per column
(`none` models a NaN cell produced by an unmatched left merge). -/
structure CTable where
  cols : List String
  rows : List ((Int × Int) × List (String × Option Nat))
deriving DecidableEq

/-- Duplicate removal keeping the first occurrence (order of group keys and
of unstacked column labels never influences the counted values). -/
def dedupF {α : Type} [DecidableEq α] (l : List α) : List α :=
  l.foldl (fun acc a => if a ∈ acc then acc else acc ++ [a]) []

/-- Association lookup on column names (a pandas column read). -/
def alookup (c : String) : List (String × Option Nat) → Option (Option Nat)
  | [] => none
  | (c', v) :: rest => if c = c' then some v else alookup c rest

/-- Association lookup on batch keys (the `on=` columns of a pandas merge). -/
def lookupKey (k : Int × Int) :
    List ((Int × Int) × List (String × Option Nat)) →
    Option (List (String × Option Nat))
  | [] => none
  | (k', v) :: rest => if k = k' then some v else lookupKey k rest

/-- The rows of the transaction data frame that belong to batch `b`. -/
def batchRows (rows : List TxRow) (b : Option Int) : List TxRow :=
  rows.filter (fun r => r.batchNumber = b)

/-- Min_Slot_Timestamp of batch `b` (groupby('Batch_Number').agg min). -/
def batchMin (rows : List TxRow) (b : Option Int) : Int :=
  match batchRows rows b with
  | [] => 0
  | r :: rest => rest.foldl (fun m x => min m x.slotTimestamp) r.slotTimestamp

/-- Max_Slot_Number of batch `b` (groupby('Batch_Number').agg max). -/
def batchMax (rows : List TxRow) (b : Option Int) : Int :=
  match batchRows rows b with
  | [] => 0
  | r :: rest => rest.foldl (fun m x => max m x.slotNumber) r.slotNumber

/-- prepare_df: attach to every transaction row the key of its batch. -/
def prepRows (rows : List TxRow) : List PRow :=
  rows.map (fun r =>
    { key := (batchMin rows r.batchNumber, batchMax rows r.batchNumber)
      row := r })

/-- count_column_values: group by (Min_Slot_Timestamp, Max_Slot_Number) and by
the value of the selected column, count rows, and unstack the selected column
into one count column per observed value (absent combinations filled with 0). -/
def countVals (ps : List PRow) (g : PRow → String) : CTable :=
  let cols := dedupF (ps.map g)
  let keys := dedupF (ps.map (·.key))
  { cols := cols
    rows := keys.map (fun k =>
      (k, cols.map (fun v =>
        (v, some ((ps.filter (fun p => p.key = k ∧ g p = v)).length))))) }

/-- Python str.startswith on the underlying character lists (structurally
recursive so that concrete evaluation reduces). -/
def listStarts : List Char → List Char → Bool
  | [], _ => true
  | _ :: _, [] => false
  | a :: as, b :: bs => a = b && listStarts as bs

/-- Python str.startswith. -/
def strStarts (s p : String) : Bool :=
  listStarts p.data s.data

/-- The renaming performed by add_prefix_to_column_names on one column name:
prefix it unless it already starts with one of the prefixes to skip
(the key columns are kept separately in this model and are never renamed). -/
def renameCol (pre : String) (skips : List String) (c : String) : String :=
  if skips.any (fun p => strStarts c p) then c else pre ++ c

/-- add_prefix_to_column_names applied to a whole count table. -/
def tagCols (pre : String) (skips : List String) (t : CTable) : CTable :=
  { cols := t.cols.map (renameCol pre skips)
    rows := t.rows.map (fun r =>
      (r.1, r.2.map (fun cv => (renameCol pre skips cv.1, cv.2)))) }

/-- merge_tables(df1, df2): the source computes df2.merge(df1, how='left'),
so df2 (the freshly counted breakdown) is the LEFT table: the result keeps
exactly df2's keys, and rows of df2 with no match in df1 get NaN (`none`)
in every df1 column. -/
def mergeT (df1 df2 : CTable) : CTable :=
  { cols := df2.cols ++ df1.cols
    rows := df2.rows.map (fun r =>
      (r.1, r.2 ++
        (match lookupKey r.1 df1.rows with
         | some cs => cs
         | none => df1.cols.map (fun c => (c, (none : Option Nat)))))) }

/-- Status breakdown, prefixed Status_ (step 1 of get_count_data_from_tx_df). -/
def stepT1 (rows : List TxRow) : CTable :=
  tagCols "Status_" [] (countVals (prepRows rows) (fun p => p.row.status))

/-- Type breakdown over all transactions (step 2, before its merge). -/
def stepT2 (rows : List TxRow) : CTable :=
  countVals (prepRows rows) (fun p => p.row.type_)

/-- Step 2 merged and prefixed Type_ (skipping Status_ columns). -/
def stepM2 (rows : List TxRow) : CTable :=
  tagCols "Type_" ["Status_"] (mergeT (stepT1 rows) (stepT2 rows))

/-- Type breakdown restricted to Success transactions (step 3). -/
def stepT3 (rows : List TxRow) : CTable :=
  countVals ((prepRows rows).filter (fun p => p.row.status = "Success"))
    (fun p => p.row.type_)

/-- Step 3 merged and prefixed Success_ (skipping Status_ and Type_). -/
def stepM3 (rows : List TxRow) : CTable :=
  tagCols "Success_" ["Status_", "Type_"] (mergeT (stepM2 rows) (stepT3 rows))

/-- Type breakdown restricted to Failed transactions (step 4). -/
def stepT4 (rows : List TxRow) : CTable :=
  countVals ((prepRows rows).filter (fun p => p.row.status = "Failed"))
    (fun p => p.row.type_)

/-- Step 4 merged and prefixed Failed_ (skipping Status_, Type_, Success_). -/
def stepM4 (rows : List TxRow) : CTable :=
  tagCols "Failed_" ["Status_", "Type_", "Success_"]
    (mergeT (stepM3 rows) (stepT4 rows))

/-- The Total cell of one row: Status_Failed + Status_Success with NaN
propagation (NaN plus anything is NaN, filled with 0 only afterwards). -/
def totalCell (cells : List (String × Option Nat)) : Option Nat :=
  match alookup "Status_Failed" cells, alookup "Status_Success" cells with
  | some (some a), some (some b) => some (a + b)
  | _, _ => none

/-- Append the Total column to the count table. -/
def addTotal (t : CTable) : CTable :=
  { cols := t.cols ++ ["Total"]
    rows := t.rows.map (fun r => (r.1, r.2 ++ [("Total", totalCell r.2)])) }

/-- One row of the canonical aggregate table (the fixed column order of
SolanaTransactionsCounter.col_order). -/
structure AggRow where
  minTs : Int
  maxSlot : Int
  typeCancelOrder : Nat
  typeComputeBudget : Nat
  typeSystem : Nat
  typeTransaction : Nat
  typeUnknown : Nat
  typeVote : Nat
  successCancelOrder : Nat
  successComputeBudget : Nat
  successSystem : Nat
  successTransaction : Nat
  successUnknown : Nat
  successVote : Nat
  failedCancelOrder : Nat
  failedComputeBudget : Nat
  failedSystem : Nat
  failedTransaction : Nat
  failedUnknown : Nat
  failedVote : Nat
  statusFailed : Nat
  statusSuccess : Nat
  total : Nat
deriving DecidableEq

/-- Reading one canonical cell after fillna(0): a value if the column exists
in the table (NaN filled with 0), and 0 when the column is absent, exactly as
__sort_columns inserts zero-valued columns for missing canonical names. -/
def cellNat (cols : List String) (cells : List (String × Option Nat))
    (c : String) : Nat :=
  if c ∈ cols then
    match alookup c cells with
    | some (some v) => v
    | _ => 0
  else 0

/-- __sort_columns applied to one row: build the canonical AggRow. -/
def toAggRow (cols : List String)
    (r : (Int × Int) × List (String × Option Nat)) : AggRow :=
  { minTs := r.1.1
    maxSlot := r.1.2
    typeCancelOrder := cellNat cols r.2 "Type_CancelOrder"
    typeComputeBudget := cellNat cols r.2 "Type_ComputeBudget"
    typeSystem := cellNat cols r.2 "Type_System"
    typeTransaction := cellNat cols r.2 "Type_Transaction"
    typeUnknown := cellNat cols r.2 "Type_Unknown"
    typeVote := cellNat cols r.2 "Type_Vote"
    successCancelOrder := cellNat cols r.2 "Success_CancelOrder"
    successComputeBudget := cellNat cols r.2 "Success_ComputeBudget"
    successSystem := cellNat cols r.2 "Success_System"
    successTransaction := cellNat cols r.2 "Success_Transaction"
    successUnknown := cellNat cols r.2 "Success_Unknown"
    successVote := cellNat cols r.2 "Success_Vote"
    failedCancelOrder := cellNat cols r.2 "Failed_CancelOrder"
    failedComputeBudget := cellNat cols r.2 "Failed_ComputeBudget"
    failedSystem := cellNat cols r.2 "Failed_System"
    failedTransaction := cellNat cols r.2 "Failed_Transaction"
    failedUnknown := cellNat cols r.2 "Failed_Unknown"
    failedVote := cellNat cols r.2 "Failed_Vote"
    statusFailed := cellNat cols r.2 "Status_Failed"
    statusSuccess := cellNat cols r.2 "Status_Success"
    total := cellNat cols r.2 "Total" }

/-- get_count_data_from_tx_df: the whole aggregation pipeline.  The source
reads count_table['Status_Failed'] and count_table['Status_Success'] to build
Total; a read of a column that is not present raises KeyError (Status_Failed
is read first by Python's evaluation order). -/
def getCountData (rows : List TxRow) : Except RunError (List AggRow) :=
  let t := stepM4 rows
  if "Status_Failed" ∈ t.cols then
    if "Status_Success" ∈ t.cols then
      let tt := addTotal t
      .ok (tt.rows.map (toAggRow tt.cols))
    else .error (.keyErr "Status_Success")
  else .error (.keyErr "Status_Failed")

/-- Python substring test (needle in haystack) on character lists. -/
def subChars (needle : List Char) : List Char → Bool
  | [] => listStarts needle []
  | c :: rest => listStarts needle (c :: rest) || subChars needle rest

/-- Python substring membership: sub in s. -/
def strContains (s sub : String) : Bool :=
  subChars sub.data s.data

/-- The meta object of a raw transaction record: the error indicator
(`none` = err key absent, `some none` = err present and null,
`some (some e)` = err present and non-null) and the optional log lines. -/
structure RawMeta where
  err : Option (Option String)
  logMessages : Option (List String)
deriving DecidableEq

/-- One raw instruction: the optional parsed type string and the optional
program id. -/
structure RawInstr where
  parsedType : Option String
  programId : Option String
deriving DecidableEq

/-- A raw transaction record as consumed by Transaction.set_from_data:
signature list, optional meta object, instruction list. -/
structure RawTx where
  signatures : List String
  meta : Option RawMeta
  instructions : List RawInstr
deriving DecidableEq

/-- Status extraction of _extract_transaction_data: Unknown unless the meta
object is present and carries an err key; then Success when err is null and
Failed when it is non-null. -/
def extractStatus (d : RawTx) : String :=
  match d.meta with
  | none => "Unknown"
  | some m =>
    match m.err with
    | none => "Unknown"
    | some none => "Success"
    | some (some _) => "Failed"

/-- Log extraction of _extract_transaction_data (defaults to the empty list
when meta or logMessages is missing). -/
def extractLogs (d : RawTx) : List String :=
  match d.meta with
  | none => []
  | some m => m.logMessages.getD []

/-- Parsed-type extraction: one entry per instruction, or the single
synthetic None entry when the instruction list is empty. -/
def extractPTypes (d : RawTx) : List (Option String) :=
  match d.instructions with
  | [] => [none]
  | l => l.map (·.parsedType)

/-- Program-id extraction: one entry per instruction, or the single
synthetic None entry when the instruction list is empty. -/
def extractPids (d : RawTx) : List (Option String) :=
  match d.instructions with
  | [] => [none]
  | l => l.map (·.programId)

/-- The log-scanning branch of _classify_transaction (reached when the
compute-budget condition is false), in the exact source order. -/
def logScan (logs : List String) : String :=
  if "Program log: Instruction: PreTransaction" ∈ logs ∧
      "Program log: Instruction: PostTransactionNoVault" ∈ logs then "Transaction"
  else if "Program log: Instruction: ScanForSurveyDataUnits" ∈ logs then "Scan"
  else if "Program log: Instruction: OracleHeartbeat" ∈ logs ∨
      "Program log: Oracle" ∈ logs then "Oracle"
  else if "Program log: Instruction: RescindLoan" ∈ logs then "Transaction"
  else if "Program log: Instruction: Transfer" ∈ logs then "Transaction"
  else if "Program log: Instruction: ClosePositionRequest" ∈ logs then "Transaction"
  else if "Program log: Instruction: Swap" ∈ logs then "Transaction"
  else if "Program log: Instruction: Claim" ∈ logs then "Transaction"
  else if "Program log: Instruction: Repay" ∈ logs then "Transaction"
  else if "Program log: Instruction: Route" ∈ logs then "Transaction"
  else if "Program log: Instruction: InitPool" ∈ logs then "Transaction"
  else if "Program log: Instruction: AttachPoolToMargin" ∈ logs then "Transaction"
  else if "Program log: Instruction: Borrow" ∈ logs then "Transaction"
  else if logs.any (fun l => strStarts l "Program log: Returned loan of") then "Transaction"
  else if "Program log: Create" ∈ logs then "Transaction"
  else if logs.any (fun l => strStarts l "Program log: Instruction: Initialize") then "Transaction"
  else if "Program log: Instruction: MintTo" ∈ logs then "Transaction"
  else if logs.any (fun l => strStarts l "Program log: Instruction: PlacePerpOrder") then "Transaction"
  else if logs.any (fun l => strStarts l "Program log: Instruction: LiquidatePerp") then "Transaction"
  else if "Program log: Instruction: SharedAccountsRoute" ∈ logs then "Transaction"
  else if "Program log: Instruction: LiquidUnstake" ∈ logs then "Transaction"
  else if logs.any (fun l => strContains l "Cancel") then "CancelOrder"
  else "Unknown"

/-- The compute-budget condition: strict mode looks at the first program id
only, relaxed mode at all of them.  The extracted lists are never empty
(extraction inserts a synthetic None entry), so the head access is total. -/
def computeBudgetCond (relax : Bool) (pids : List (Option String)) : Bool :=
  if relax then
    pids.all (fun p => p = some "ComputeBudget111111111111111111111111111111")
  else
    pids.headD none = some "ComputeBudget111111111111111111111111111111"

/-- _classify_transaction: the ordered rule chain of the source.  The final
Python `elif not compute_budget_condition` is the complement of the previous
branch, so it is a plain else here (the trailing `else: Unknown` of the
source is unreachable). -/
def classify (relax : Bool) (ptypes pids : List (Option String))
    (logs : List String) : String :=
  let p0 := pids.headD none
  let t0 := ptypes.headD none
  if p0 = some "FsJ3A3u2vn5cTVofAjvy6y5kwABJAqYWpe4975bi2epH" then "UpdatePrice"
  else if t0 = some "transfer" then "Transaction"
  else if t0 = some "create" then "Transaction"
  else if t0 = some "mintTo" then "Transaction"
  else if t0 = some "transferChecked" then "Transaction"
  else if t0 = some "compactupdatevotestate" then "Vote"
  else if t0 = some "BPFLoaderUpgradeab1e11111111111111111111111" then "BPF"
  else if t0 = some "extendLookupTable" then "System"
  else if "Program log: Instruction: FunctionVerify" ∈ logs then "System"
  else if "Program log: Instruction: FleetStateHandler" ∈ logs then "System"
  else if computeBudgetCond relax pids then "ComputeBudget"
  else logScan logs

/-- A classified transaction (signature, status, type), the data Slot.to_df
reads back out of a Transaction object. -/
structure Tx where
  signature : String
  status : String
  type_ : String
deriving DecidableEq

/-- Transaction construction from a raw record (set_from_data): extraction
fails fast when the signature is missing, otherwise status and type are
computed; set_from_data always classifies with relax_compute_budget_count
false. -/
def txFromRaw (d : RawTx) : Except RunError Tx :=
  match d.signatures with
  | [] => .error .malformedRecord
  | sg :: _ =>
    .ok { signature := sg
          status := extractStatus d
          type_ := classify false (extractPTypes d) (extractPids d)
            (extractLogs d) }

/-- A concrete batch consisting of one Success transaction only. -/
def oneSuccessRow : TxRow :=
  { slotNumber := 5, slotTimestamp := 100, batchNumber := some 0
    signature := "sigA", status := "Success", type_ := "Vote" }

/-- The counterexample record for C3: first instruction carries the
compute-budget program id AND the parsed type transfer, and the logs carry
the FunctionVerify marker. -/
def cexComputeTransfer : RawTx :=
  { signatures := ["sigC"]
    meta := some
      { err := some none
        logMessages := some ["Program log: Instruction: FunctionVerify"] }
    instructions :=
      [{ parsedType := some "transfer"
         programId := some "ComputeBudget111111111111111111111111111111" }] }

/-- A record for the amended C3 and its witness: compute-budget program id,
no parsed type, FunctionVerify marker in the logs. -/
def cexComputeVerify : RawTx :=
  { signatures := ["sigV"]
    meta := some
      { err := some none
        logMessages := some ["Program log: Instruction: FunctionVerify"] }
    instructions :=
      [{ parsedType := none
         programId := some "ComputeBudget111111111111111111111111111111" }] }

/-- A concrete successful record for the C4 witness. -/
def sampleSuccessTx : RawTx :=
  { signatures := ["sigS"]
    meta := some { err := some none, logMessages := some [] }
    instructions := [] }

/-- A Slot object: number, timestamp, batch number and classified
transactions (timestamp and batch number start out unset, as in Python). -/
structure Slot where
  number : Int
  timestamp : Option Int
  batchNumber : Option Int
  transactions : List Tx
deriving DecidableEq

/-- Slot.to_df: one transaction-level row per transaction.  Every flow of the
source that reaches to_df has a set timestamp (int(None) would raise), so the
0 default is unreachable. -/
def slotToRows (s : Slot) : List TxRow :=
  s.transactions.map (fun tx =>
    { slotNumber := s.number
      slotTimestamp := s.timestamp.getD 0
      batchNumber := s.batchNumber
      signature := tx.signature
      status := tx.status
      type_ := tx.type_ })

/-- The SolanaChain ledger state: ingested slots, the dedup list of slot
numbers, the latest validated slot, the running aggregate table, and the
batch counter. -/
structure SolanaChain where
  slots : List Slot
  slot_numbers : List Int
  latestSlot : Option Slot
  df : Option (List AggRow)
  batch_number : Int
deriving DecidableEq

/-- SolanaChain.__init__. -/
def freshChain : SolanaChain :=
  { slots := [], slot_numbers := [], latestSlot := none, df := none
    batch_number := -1 }

/-- Insertion step of the ascending sort on Min_Slot_Timestamp. -/
def insertByTs (r : AggRow) : List AggRow → List AggRow
  | [] => [r]
  | x :: xs => if r.minTs ≤ x.minTs then r :: x :: xs else x :: insertByTs r xs

/-- df.sort_values(['Min_Slot_Timestamp']): ascending sort of the running
table by Min_Slot_Timestamp. -/
def sortByTs (l : List AggRow) : List AggRow :=
  l.foldr insertByTs []

/-- SolanaChain.update_df: fold the given slots through the aggregation
engine, append the produced rows to the running table, re-sort it by
Min_Slot_Timestamp, and in flush mode clear the raw slot buffer and reset
the batch counter to 0.  A KeyError raised by the aggregation engine
propagates before any field of the chain is assigned. -/
def update_df (c : SolanaChain) (slots : List Slot) (flush : Bool) :
    SolanaChain × Option RunError :=
  match getCountData ((slots.map slotToRows).flatten) with
  | .error e => (c, some e)
  | .ok newRows =>
    let c1 := { c with df := some (sortByTs ((c.df.getD []) ++ newRows)) }
    if flush then ({ c1 with slots := [], batch_number := 0 }, none)
    else (c1, none)

/-- SolanaChain.add_slot_to_chain with update_df=False (as invoked from
add_slots_to_chain): no-op when the slot number is already known, otherwise
append the slot and its number. -/
def add_slot_to_chain (c : SolanaChain) (s : Slot) : SolanaChain :=
  if s.number ∈ c.slot_numbers then c
  else
    { c with slots := c.slots ++ [s]
             slot_numbers := c.slot_numbers ++ [s.number] }

/-- SolanaChain.add_slot_to_chain with explicit update_df / flush_slots
flags: the early return on a duplicate slot number happens before any
DataFrame update. -/
def add_slot_to_chain_upd (c : SolanaChain) (s : Slot) (upd flush : Bool) :
    SolanaChain × Option RunError :=
  if s.number ∈ c.slot_numbers then (c, none)
  else
    let c1 :=
      { c with slots := c.slots ++ [s]
               slot_numbers := c.slot_numbers ++ [s.number] }
    if upd then update_df c1 [s] flush else (c1, none)

/-- slot.set_batch_number. -/
def setBatch (b : Int) (s : Slot) : Slot :=
  { s with batchNumber := some b }

/-- SolanaChain.add_slots_to_chain: increment the batch counter, stamp every
slot of the argument list with the new batch number, add each slot through
the dedup guard, then hand the WHOLE argument list (duplicates included) to
update_df. -/
def add_slots_to_chain (c : SolanaChain) (slotList : List Slot)
    (flush : Bool) : SolanaChain × Option RunError :=
  let b := c.batch_number + 1
  let tagged := slotList.map (setBatch b)
  let c1 := { c with batch_number := b }
  let c2 := tagged.foldl add_slot_to_chain c1
  update_df c2 tagged flush

/-- The ledger operations a driver can issue. -/
inductive ChainOp where
  | addSlot (s : Slot) (upd flush : Bool)
  | addBatch (slots : List Slot) (flush : Bool)

/-- Apply one ledger operation (Python mutates the chain in place even when
the aggregation engine raises, so the state component is kept on error). -/
def applyOp (c : SolanaChain) : ChainOp → SolanaChain
  | .addSlot s upd flush => (add_slot_to_chain_upd c s upd flush).1
  | .addBatch slots flush => (add_slots_to_chain c slots flush).1

/-- Run a sequence of ledger operations from a fresh chain. -/
def runOps (c : SolanaChain) (ops : List ChainOp) : SolanaChain :=
  ops.foldl applyOp c

/-- The ledger invariant: the dedup list is duplicate-free, the ingested
slots carry pairwise distinct numbers, and every ingested slot number is in
the dedup list. -/
def ChainInv (c : SolanaChain) : Prop :=
  c.slot_numbers.Nodup ∧ (c.slots.map Slot.number).Nodup ∧
    ∀ s ∈ c.slots, s.number ∈ c.slot_numbers

/-- Concrete slot with two transactions of both statuses (so that the
aggregation engine succeeds on it). -/
def slotA : Slot :=
  { number := 1, timestamp := some 100, batchNumber := none
    transactions := [⟨"sa1", "Success", "Vote"⟩, ⟨"sa2", "Failed", "Vote"⟩] }

/-- A second concrete slot, distinct number and timestamp. -/
def slotB : Slot :=
  { number := 2, timestamp := some 200, batchNumber := none
    transactions := [⟨"sb1", "Success", "Vote"⟩, ⟨"sb2", "Failed", "Vote"⟩] }

/-- A third concrete slot. -/
def slotC : Slot :=
  { number := 3, timestamp := some 300, batchNumber := none
    transactions := [⟨"sc1", "Success", "Vote"⟩, ⟨"sc2", "Failed", "Vote"⟩] }

/-- Chain after the first flushed batch. -/
def flushChain1 : SolanaChain :=
  (add_slots_to_chain freshChain [slotA] true).1

/-- Chain after the second flushed batch. -/
def flushChain2 : SolanaChain :=
  (add_slots_to_chain flushChain1 [slotB] true).1

/-- A chain that already ingested slotA (so slot number 1 is in the dedup
list). -/
def memChain : SolanaChain :=
  add_slot_to_chain freshChain slotA

/-- The closed status vocabulary the extractor produces. -/
def statusNames : List String :=
  ["Success", "Failed", "Unknown"]

/-- The closed type taxonomy the classifier produces. -/
def typeNames : List String :=
  ["UpdatePrice", "Transaction", "Vote", "BPF", "System", "ComputeBudget",
   "Scan", "Oracle", "CancelOrder", "Unknown"]

/-- Well-formed transaction rows: status and type drawn from the closed
vocabularies (true of every row Slot.to_df produces, since status comes from
extractStatus and type from classify). -/
def wfRows (rows : List TxRow) : Prop :=
  ∀ r ∈ rows, r.status ∈ statusNames ∧ r.type_ ∈ typeNames

/-- Upper bound for the columns of stepT1. -/
def colsC1 : List String :=
  statusNames.map (renameCol "Status_" [])

/-- Upper bound for the columns of stepM2. -/
def colsC2 : List String :=
  (typeNames ++ colsC1).map (renameCol "Type_" ["Status_"])

/-- Upper bound for the columns of stepM3. -/
def colsC3 : List String :=
  (typeNames ++ colsC2).map (renameCol "Success_" ["Status_", "Type_"])

/-- Upper bound for the columns of stepM4. -/
def colsC4 : List String :=
  (typeNames ++ colsC3).map (renameCol "Failed_" ["Status_", "Type_", "Success_"])

/-- Every row's cell labels agree with the table's column list (true of every
pandas frame: cells exist exactly for the frame's columns). -/
def RMC (t : CTable) : Prop :=
  ∀ r ∈ t.rows, r.2.map Prod.fst = t.cols

/-- Every cell of the table holds an actual number (no NaN). -/
def AllCellsSome (t : CTable) : Prop :=
  ∀ r ∈ t.rows, ∀ cv ∈ r.2, ∃ n : Nat, cv.2 = some n

/-- Both status-count cells of a row hold actual numbers. -/
def bothSomeFS (cells : List (String × Option Nat)) : Prop :=
  (∃ a, alookup "Status_Failed" cells = some (some a)) ∧
  (∃ b, alookup "Status_Success" cells = some (some b))

/-- The two status-count cells are synchronized: both are numbers, or both
are NaN (they travel together through every left merge of the pipeline). -/
def syncFS (cells : List (String × Option Nat)) : Prop :=
  bothSomeFS cells ∨
  (alookup "Status_Failed" cells = some none ∧
   alookup "Status_Success" cells = some none)

/-- A parsed block payload as returned by the RPC collaborator's getBlock:
the block time and the raw transactions.  The collaborator itself is a
function Int → Option Block (None models a skipped / not-yet-final slot or
a transport failure, both treated alike by get_slot_data). -/
structure Block where
  blockTime : Int
  transactions : List RawTx
deriving DecidableEq

/-- The Python list comprehension building a Slot's transactions: the first
extraction failure aborts the construction. -/
def mapTx : List RawTx → Except RunError (List Tx)
  | [] => .ok []
  | d :: rest =>
    match txFromRaw d with
    | .error e => .error e
    | .ok t =>
      match mapTx rest with
      | .error e => .error e
      | .ok ts => .ok (t :: ts)

/-- Slot(slot_number, slot_data): set the number, the block time, and the
classified transactions (batch number still unset). -/
def slotFromBlock (n : Int) (b : Block) : Except RunError Slot :=
  match mapTx b.transactions with
  | .error e => .error e
  | .ok txs =>
    .ok { number := n, timestamp := some b.blockTime, batchNumber := none
          transactions := txs }

/-- get_slot_within_time_range: probe slot ref.number + shift; absence gives
None; a block within the tolerance yields the constructed Slot; a block
outside the tolerance yields the sentinel Slot(-1, None).  Every flow of the
source reaching this point has a set reference timestamp, so the 0 default
is unreachable.  The first component is the probed slot number. -/
def getSlotWithinTimeRange (rpc : Int → Option Block) (spb : Int)
    (ref : Slot) (shift : Int) :
    List Int × Except RunError (Option Slot) :=
  let n := ref.number + shift
  ([n],
    match rpc n with
    | none => .ok none
    | some b =>
      if (((ref.timestamp.getD 0) - b.blockTime).natAbs : Int) ≤ spb then
        match slotFromBlock n b with
        | .error e => .error e
        | .ok s => .ok (some s)
      else
        .ok (some { number := -1, timestamp := none, batchNumber := none
                    transactions := [] }))

/-- The per-iteration shift increment: plus one forward, minus one backward
(Python: 1 if find_subsequent else -1). -/
def dirStep : Bool → Int
  | true => 1
  | false => -1

/-- The probe target of the explore_chain inner loop: slot_number + shift
forward, slot_number - shift backward. -/
def probeAt : Bool → Int → Int → Int
  | true, sn, shift => sn + shift
  | false, sn, shift => sn - shift

/-- The window-exhaustion test of the explore_chain inner loop. -/
def ecBreak : Bool → Int → Int → Int → Int → Bool
  | true, n, sn, jump, latest => decide (n ≥ sn + jump ∨ n > latest)
  | false, n, sn, jump, _ => decide (n ≤ sn - jump ∨ n < 1)

/-- The loop of find_slots_within_time_range, fuel-indexed: an outcome of
`none` means the loop was still running after `fuel` iterations; otherwise
it yields the miss shift (Sum.inl, when a probe found no data) or the list
of accepted slots (Sum.inr).  The first component collects the probed slot
numbers. -/
def findSlotsLoop (rpc : Int → Option Block) (spb latest : Int) (ref : Slot)
    (fwd : Bool) :
    List Slot → Int → Nat →
      List Int × Option (Except RunError (Sum Int (List Slot)))
  | _, _, 0 => ([], none)
  | found, shift, fuel + 1 =>
    let pr := getSlotWithinTimeRange rpc spb ref shift
    match pr.2 with
    | .error e => (pr.1, some (.error e))
    | .ok none => (pr.1, some (.ok (Sum.inl shift)))
    | .ok (some s) =>
      if s.number = -1 then (pr.1, some (.ok (Sum.inr found)))
      else
        let found2 := found ++ [s]
        let shift2 := shift + dirStep fwd
        if ref.number + shift2 > latest then
          (pr.1, some (.ok (Sum.inr found2)))
        else
          let r := findSlotsLoop rpc spb latest ref fwd found2 shift2 fuel
          (pr.1 ++ r.1, r.2)

/-- find_slots_within_time_range: the batch starts with the reference slot
and the shift starts at plus or minus one. -/
def find_slots_in_range (rpc : Int → Option Block) (spb latest : Int)
    (ref : Slot) (fwd : Bool) (fuel : Nat) :
    List Int × Option (Except RunError (Sum Int (List Slot))) :=
  findSlotsLoop rpc spb latest ref fwd [ref] (dirStep fwd) fuel

/-- The inner probe loop of update_slots (always forward), fuel-indexed:
walks a probe offset inside the window [sn, sn + jump) until it finds a
batch, exhausts the window, or passes latest; a missing slot advances the
offset by one, a boundary-search miss advances it by the returned shift.
The first component collects every getBlock probe issued. -/
def usInner (rpc : Int → Option Block) (spb latest jump sn : Int)
    (fuelF : Nat) :
    Int → Nat → List Int × Option (Except RunError (List Slot))
  | _, 0 => ([], none)
  | shift, fuel + 1 =>
    let n := sn + shift
    if n ≥ sn + jump ∨ n > latest then ([], some (.ok []))
    else
      match rpc n with
      | none =>
        let r := usInner rpc spb latest jump sn fuelF (shift + 1) fuel
        (n :: r.1, r.2)
      | some b =>
        if spb ≠ 0 then
          match slotFromBlock n b with
          | .error e => ([n], some (.error e))
          | .ok s =>
            let fr := find_slots_in_range rpc spb latest s true fuelF
            match fr.2 with
            | none => (n :: fr.1, none)
            | some (.error e) => (n :: fr.1, some (.error e))
            | some (.ok (Sum.inl sh)) =>
              let r := usInner rpc spb latest jump sn fuelF (shift + sh) fuel
              (n :: (fr.1 ++ r.1), r.2)
            | some (.ok (Sum.inr slots)) => (n :: fr.1, some (.ok slots))
        else
          match slotFromBlock n b with
          | .error e => ([n], some (.error e))
          | .ok s => ([n], some (.ok [s]))

/-- The outer window loop of update_slots, fuel-indexed: while the next
window fits under latest and the step budget remains, advance the window,
run the inner probe loop, commit any found batch to the ledger, and
continue.  An exception raised while building or committing a batch aborts
the pass with the chain as mutated so far. -/
def usOuter (rpc : Int → Option Block) (spb latest jump nUpdates : Int)
    (flush : Bool) (fuelI fuelF : Nat) :
    SolanaChain → Int → Int → Nat →
      List Int × Option (SolanaChain × Option RunError)
  | _, _, _, 0 => ([], none)
  | c, sn, sc, fuelO + 1 =>
    if sn + jump ≤ latest ∧ sc < nUpdates then
      let sn2 := sn + jump
      let ir := usInner rpc spb latest jump sn2 fuelF 0 fuelI
      match ir.2 with
      | none => (ir.1, none)
      | some (.error e) => (ir.1, some (c, some e))
      | some (.ok found) =>
        match found with
        | [] =>
          let sc2 := sc + (if nUpdates > -1 then 1 else 0)
          let r := usOuter rpc spb latest jump nUpdates flush fuelI fuelF
            c sn2 sc2 fuelO
          (ir.1 ++ r.1, r.2)
        | s :: rest =>
          let ares := add_slots_to_chain c (s :: rest) flush
          match ares.2 with
          | some e => (ir.1, some (ares.1, some e))
          | none =>
            let sc2 := sc + (if nUpdates > -1 then 1 else 0)
            let r := usOuter rpc spb latest jump nUpdates flush fuelI fuelF
              ares.1 sn2 sc2 fuelO
            (ir.1 ++ r.1, r.2)
    else ([], some (c, none))

/-- Max_Slot_Number cursor of a persisted table (df['Max_Slot_Number'].max()). -/
def maxMaxSlot : List AggRow → Int
  | [] => 0
  | r :: rest => rest.foldl (fun m x => max m x.maxSlot) r.maxSlot

/-- update_slots: raise NotInitialized when the running table is None or has
zero rows (before any probe or state change); report up to date when the
next window would pass latest; otherwise run the window loop from the
cursor.  `latest` models self.chain.latest_slot.get_number(), which no step
of this pass modifies. -/
def update_slots (rpc : Int → Option Block) (latest jump spb : Int)
    (flush : Bool) (nUpdates : Int) (c : SolanaChain)
    (fuelO fuelI fuelF : Nat) :
    List Int × Option (SolanaChain × Option RunError) :=
  let sc : Int := if nUpdates ≤ -1 then -2 else 0
  match c.df with
  | none => ([], some (c, some .notInitialized))
  | some rows =>
    if rows.isEmpty then ([], some (c, some .notInitialized))
    else
      let last := maxMaxSlot rows
      if last ≥ latest ∨ last + jump > latest then ([], some (c, none))
      else usOuter rpc spb latest jump nUpdates flush fuelI fuelF c last sc fuelO

/-- store_to_csv: writes the table only when it exists and has rows
(otherwise only a message is printed and nothing is written). -/
def store_to_csv (c : SolanaChain) : Option (List AggRow) :=
  match c.df with
  | none => none
  | some rows => if rows.isEmpty then none else some rows

/-- load_from_csv: install the persisted rows as the running table and reset
the cursor slot to the highest recorded Max_Slot_Number (a bare Slot with no
data). -/
def load_from_csv (c : SolanaChain) (rows : List AggRow) : SolanaChain :=
  { c with df := some rows
           latestSlot := some { number := maxMaxSlot rows, timestamp := none
                                batchNumber := none, transactions := [] } }

/-- The inner probe loop of explore_chain, fuel-indexed; unlike usInner it
can walk backward: the probe is sn + shift forward and sn - shift backward,
and a missing slot moves shift by plus or minus one. -/
def ecInner (rpc : Int → Option Block) (spb latest jump : Int) (fwd : Bool)
    (sn : Int) (fuelF : Nat) :
    Int → Nat → List Int × Option (Except RunError (List Slot))
  | _, 0 => ([], none)
  | shift, fuel + 1 =>
    let n := probeAt fwd sn shift
    if ecBreak fwd n sn jump latest then ([], some (.ok []))
    else
      match rpc n with
      | none =>
        let r := ecInner rpc spb latest jump fwd sn fuelF
          (shift + dirStep fwd) fuel
        (n :: r.1, r.2)
      | some b =>
        if spb ≠ 0 then
          match slotFromBlock n b with
          | .error e => ([n], some (.error e))
          | .ok s =>
            let fr := find_slots_in_range rpc spb latest s fwd fuelF
            match fr.2 with
            | none => (n :: fr.1, none)
            | some (.error e) => (n :: fr.1, some (.error e))
            | some (.ok (Sum.inl sh)) =>
              let r := ecInner rpc spb latest jump fwd sn fuelF
                (shift + sh) fuel
              (n :: (fr.1 ++ r.1), r.2)
            | some (.ok (Sum.inr slots)) => (n :: fr.1, some (.ok slots))
        else
          match slotFromBlock n b with
          | .error e => ([n], some (.error e))
          | .ok s => ([n], some (.ok [s]))

/-- The outer window loop of explore_chain, fuel-indexed: stop after
n_batches_to_explore windows or when the window start reaches latest,
otherwise search the window, commit any found batch, and move the window by
plus or minus jump. -/
def ecOuter (rpc : Int → Option Block) (spb latest jump nBatches : Int)
    (fwd flush : Bool) (fuelI fuelF : Nat) :
    SolanaChain → Int → Int → Nat →
      List Int × Option (SolanaChain × Option RunError)
  | _, _, _, 0 => ([], none)
  | c, sn, sc, fuelO + 1 =>
    if sc = nBatches ∨ sn ≥ latest then ([], some (c, none))
    else
      let ir := ecInner rpc spb latest jump fwd sn fuelF 0 fuelI
      match ir.2 with
      | none => (ir.1, none)
      | some (.error e) => (ir.1, some (c, some e))
      | some (.ok found) =>
        let step : SolanaChain × Option RunError :=
          match found with
          | [] => (c, none)
          | s :: rest => add_slots_to_chain c (s :: rest) flush
        match step.2 with
        | some e => (ir.1, some (step.1, some e))
        | none =>
          let r := ecOuter rpc spb latest jump nBatches fwd flush fuelI fuelF
            step.1 (if fwd then sn + jump else sn - jump) (sc + 1) fuelO
          (ir.1 ++ r.1, r.2)

/-- explore_chain: run the outer window loop from the starting slot number
with a fresh step counter. -/
def explore_chain (rpc : Int → Option Block) (spb latest jump nBatches : Int)
    (start : Int) (fwd flush : Bool) (c : SolanaChain)
    (fuelO fuelI fuelF : Nat) :
    List Int × Option (SolanaChain × Option RunError) :=
  ecOuter rpc spb latest jump nBatches fwd flush fuelI fuelF c start 0 fuelO

/-- The RPC collaborator that has no data for any slot. -/
def rpcEmpty : Int → Option Block := fun _ => none

/-- The canonical aggregate row the engine produces for slotA alone. -/
def dupAggRow : AggRow :=
  { minTs := 100
    maxSlot := 1
    typeCancelOrder := 0
    typeComputeBudget := 0
    typeSystem := 0
    typeTransaction := 0
    typeUnknown := 0
    typeVote := 2
    successCancelOrder := 0
    successComputeBudget := 0
    successSystem := 0
    successTransaction := 0
    successUnknown := 0
    successVote := 1
    failedCancelOrder := 0
    failedComputeBudget := 0
    failedSystem := 0
    failedTransaction := 0
    failedUnknown := 0
    failedVote := 1
    statusFailed := 1
    statusSuccess := 1
    total := 2 }

/-- A previously persisted ledger holding the slotA aggregate row. -/
def storedChain : SolanaChain :=
  { freshChain with df := some [dupAggRow] }

end SolTrack

namespace SolTrack

/-- C1 (code_bug evidence): for a batch whose transactions all share the
Success status, the aggregation engine does not produce a schema-complete
zero-filled row: the Failed-status breakdown is empty, the left merge keeps
its (empty) key set, and the Total computation reads the absent
Status_Failed column, raising KeyError.  This theorem evaluates the code
model at the failing input. -/
theorem C1_agg_keyerror_on_all_success_batch :
    getCountData [oneSuccessRow] = .error (.keyErr "Status_Failed") := by
  decide

/-- C3 counterexample: a raw record whose first instruction has the
compute-budget program id and whose logs contain the FunctionVerify marker,
but whose first parsed instruction type is transfer, classifies as
Transaction, not System, because the parsed-type rules precede the
log-marker rule — the claim as stated is false at this input. -/
theorem C3_counterexample_parsed_type_wins :
    (txFromRaw cexComputeTransfer).map Tx.type_ = .ok "Transaction" ∧
      "Transaction" ≠ "System" := by
  decide

/-- C3 (amended): a record whose first instruction's program id is the
compute-budget program id and whose logs contain the FunctionVerify marker
classifies as System, not ComputeBudget, PROVIDED the first instruction's
parsed type matches none of the earlier parsed-type rules (transfer, create,
mintTo, transferChecked, compactupdatevotestate, the BPF-loader marker,
extendLookupTable). -/
theorem C3_compute_budget_function_verify_is_system
    (d : RawTx) (tx : Tx) (h : txFromRaw d = .ok tx)
    (hp : (extractPids d).headD none =
      some "ComputeBudget111111111111111111111111111111")
    (hl : "Program log: Instruction: FunctionVerify" ∈ extractLogs d)
    (ht : (extractPTypes d).headD none ∉
      ([some "transfer", some "create", some "mintTo", some "transferChecked",
        some "compactupdatevotestate",
        some "BPFLoaderUpgradeab1e11111111111111111111111",
        some "extendLookupTable"] : List (Option String))) :
    tx.type_ = "System" := by
  have htype : tx.type_ =
      classify false (extractPTypes d) (extractPids d) (extractLogs d) := by
    cases hs : d.signatures with
    | nil => simp [txFromRaw, hs] at h
    | cons a l =>
      rw [txFromRaw, hs] at h
      cases h
      rfl
  simp only [List.mem_cons, List.not_mem_nil, or_false, not_or] at ht
  obtain ⟨ht1, ht2, ht3, ht4, ht5, ht6, ht7⟩ := ht
  have hne : (some "ComputeBudget111111111111111111111111111111" :
      Option String) ≠ some "FsJ3A3u2vn5cTVofAjvy6y5kwABJAqYWpe4975bi2epH" := by
    decide
  rw [htype, classify]
  simp only [hp, hl, ht1, ht2, ht3, ht4, ht5, ht6, ht7]
  simp [hne]

/-- Witness for the amended C3 at a concrete record. -/
theorem C3_compute_budget_function_verify_witness :
    ∃ tx : Tx, txFromRaw cexComputeVerify = .ok tx ∧ tx.type_ = "System" := by
  refine ⟨{ signature := "sigV", status := "Success", type_ := "System" }, ?_, ?_⟩
  · decide
  · exact C3_compute_budget_function_verify_is_system cexComputeVerify _
      (by decide) (by decide) (by decide) (by decide)

/-- C4: status classification.  For every raw record whose extraction
succeeds: status is Success exactly when the meta object is present and its
error indicator is explicitly null, Failed exactly when the error indicator
is present and non-null, and Unknown exactly when the error field cannot be
determined (meta missing, or meta present without an err key). -/
theorem C4_status_classification (d : RawTx) (tx : Tx)
    (h : txFromRaw d = .ok tx) :
    (tx.status = "Success" ↔ ∃ m, d.meta = some m ∧ m.err = some none) ∧
    (tx.status = "Failed" ↔ ∃ m e, d.meta = some m ∧ m.err = some (some e)) ∧
    (tx.status = "Unknown" ↔
      d.meta = none ∨ ∃ m, d.meta = some m ∧ m.err = none) := by
  have hstat : tx.status = extractStatus d := by
    cases hs : d.signatures with
    | nil => simp [txFromRaw, hs] at h
    | cons a l =>
      rw [txFromRaw, hs] at h
      cases h
      rfl
  rw [hstat]
  cases hm : d.meta with
  | none => simp [extractStatus, hm]
  | some m =>
    cases he : m.err with
    | none => simp [extractStatus, hm, he]
    | some e =>
      cases e with
      | none => simp [extractStatus, hm, he]
      | some v => simp [extractStatus, hm, he]

/-- Witness for C4 at a concrete record with an explicitly null error. -/
theorem C4_status_classification_witness :
    (Tx.mk "sigS" "Success" "Unknown").status = "Success" :=
  (C4_status_classification sampleSuccessTx _ (by decide)).1.mpr
    ⟨{ err := some none, logMessages := some [] }, rfl, rfl⟩

/-- update_df never touches the dedup list. -/
theorem update_df_slot_numbers (c : SolanaChain) (slots : List Slot)
    (flush : Bool) : (update_df c slots flush).1.slot_numbers = c.slot_numbers := by
  unfold update_df
  cases getCountData ((slots.map slotToRows).flatten) with
  | error e => rfl
  | ok rows => cases flush <;> rfl

/-- update_df without flushing keeps the batch counter. -/
theorem update_df_false_batch (c : SolanaChain) (slots : List Slot) :
    (update_df c slots false).1.batch_number = c.batch_number := by
  unfold update_df
  cases getCountData ((slots.map slotToRows).flatten) with
  | error e => rfl
  | ok rows => rfl

/-- add_slot_to_chain keeps the batch counter. -/
theorem add_slot_batch (c : SolanaChain) (s : Slot) :
    (add_slot_to_chain c s).batch_number = c.batch_number := by
  unfold add_slot_to_chain
  split <;> rfl

/-- Folding add_slot_to_chain keeps the batch counter. -/
theorem foldl_add_slot_batch (l : List Slot) :
    ∀ c : SolanaChain, (l.foldl add_slot_to_chain c).batch_number =
      c.batch_number := by
  induction l with
  | nil => intro c; rfl
  | cons s rest ih =>
    intro c
    rw [List.foldl_cons, ih, add_slot_batch]

/-- C5 (amended): without the flush-slots option every addBatch call
increments the ledger's batch counter by exactly one, so across any sequence
of non-flushing addBatch operations each later batch is assigned a strictly
larger batch number; with flush-slots the counter is reset to 0 after each
successful batch, so monotonicity fails (see the counterexample). -/
theorem C5_batch_counter_increments_without_flush
    (c : SolanaChain) (slotList : List Slot) :
    (add_slots_to_chain c slotList false).1.batch_number =
        c.batch_number + 1 ∧
      c.batch_number < (add_slots_to_chain c slotList false).1.batch_number := by
  unfold add_slots_to_chain
  rw [update_df_false_batch, foldl_add_slot_batch]
  exact ⟨rfl, lt_add_one c.batch_number⟩

/-- C5 counterexample: three successive flushed addBatch calls from a fresh
ledger.  Both aggregations succeed (no error), yet the batch number the
second call assigns (counter + 1 at flushChain1) and the one the third call
would assign (counter + 1 at flushChain2) are both 1: a later batch does not
receive a strictly larger number than an earlier one. -/
theorem C5_counterexample_flush_repeats_batch_number :
    (add_slots_to_chain freshChain [slotA] true).2 = none ∧
    (add_slots_to_chain flushChain1 [slotB] true).2 = none ∧
    flushChain1.batch_number + 1 = 1 ∧
    flushChain2.batch_number + 1 = 1 := by
  decide

/-- The ledger invariant survives one dedup-guarded slot insertion. -/
theorem chainInv_add_slot {c : SolanaChain} (s : Slot) (h : ChainInv c) :
    ChainInv (add_slot_to_chain c s) := by
  obtain ⟨h1, h2, h3⟩ := h
  unfold add_slot_to_chain
  split
  · exact ⟨h1, h2, h3⟩
  · rename_i hmem
    refine ⟨?_, ?_, ?_⟩
    · rw [List.nodup_append]
      refine ⟨h1, List.nodup_singleton _, ?_⟩
      intro a ha hb
      simp only [List.mem_singleton] at hb
      subst hb
      exact hmem ha
    · simp only [List.map_append, List.map_cons, List.map_nil]
      rw [List.nodup_append]
      refine ⟨h2, List.nodup_singleton _, ?_⟩
      intro a ha hb
      simp only [List.mem_singleton] at hb
      subst hb
      obtain ⟨t, ht, htn⟩ := List.mem_map.mp ha
      exact hmem (htn ▸ h3 t ht)
    · intro t ht
      rcases List.mem_append.mp ht with h | h
      · exact List.mem_append.mpr (Or.inl (h3 t h))
      · simp only [List.mem_singleton] at h
        subst h
        simp


/-- The ledger invariant survives update_df (which only rewrites the table
and, in flush mode, empties the slot buffer). -/
theorem chainInv_update_df {c : SolanaChain} (slots : List Slot)
    (flush : Bool) (h : ChainInv c) : ChainInv (update_df c slots flush).1 := by
  obtain ⟨h1, h2, h3⟩ := h
  unfold update_df
  cases getCountData ((slots.map slotToRows).flatten) with
  | error e => exact ⟨h1, h2, h3⟩
  | ok rows =>
    cases flush with
    | false => exact ⟨h1, h2, h3⟩
    | true =>
      refine ⟨h1, ?_, ?_⟩
      · simp
      · intro s hs
        simp at hs

/-- The ledger invariant survives folding add_slot_to_chain over a list. -/
theorem chainInv_foldl_add_slot (l : List Slot) :
    ∀ c : SolanaChain, ChainInv c → ChainInv (l.foldl add_slot_to_chain c) := by
  induction l with
  | nil => intro c h; exact h
  | cons s rest ih =>
    intro c h
    rw [List.foldl_cons]
    exact ih _ (chainInv_add_slot s h)

/-- The ledger invariant survives any single ledger operation. -/
theorem chainInv_applyOp {c : SolanaChain} (op : ChainOp) (h : ChainInv c) :
    ChainInv (applyOp c op) := by
  cases op with
  | addSlot s upd flush =>
    show ChainInv (add_slot_to_chain_upd c s upd flush).1
    unfold add_slot_to_chain_upd
    split
    · exact h
    · rename_i hmem
      have hc1 : ChainInv
          { c with slots := c.slots ++ [s]
                   slot_numbers := c.slot_numbers ++ [s.number] } := by
        have := chainInv_add_slot s h
        rwa [add_slot_to_chain, if_neg hmem] at this
      cases upd with
      | false => exact hc1
      | true => exact chainInv_update_df [s] flush hc1
  | addBatch slots flush =>
    show ChainInv (add_slots_to_chain c slots flush).1
    unfold add_slots_to_chain
    exact chainInv_update_df _ flush
      (chainInv_foldl_add_slot _ _ ⟨h.1, h.2.1, h.2.2⟩)

/-- The ledger invariant holds in every state reachable from a given
invariant-satisfying state. -/
theorem chainInv_runOps (ops : List ChainOp) :
    ∀ c : SolanaChain, ChainInv c → ChainInv (runOps c ops) := by
  induction ops with
  | nil => intro c h; exact h
  | cons op rest ih =>
    intro c h
    show ChainInv (rest.foldl applyOp (applyOp c op))
    exact ih _ (chainInv_applyOp op h)

/-- C6: (i) in every ledger state reachable from a fresh chain by any
sequence of addSlot / addBatch operations, the dedup list is duplicate-free
and no two ingested Slots share a slot number; (ii) add_slot_to_chain is a
no-op when the slot's number is already present; (iii) otherwise it appends
the slot to the slot list and its number to the dedup list. -/
theorem C6_no_two_slots_share_number :
    (∀ ops : List ChainOp,
      (runOps freshChain ops).slot_numbers.Nodup ∧
        ((runOps freshChain ops).slots.map Slot.number).Nodup) ∧
    (∀ (c : SolanaChain) (s : Slot), s.number ∈ c.slot_numbers →
      add_slot_to_chain c s = c) ∧
    (∀ (c : SolanaChain) (s : Slot), s.number ∉ c.slot_numbers →
      add_slot_to_chain c s =
        { c with slots := c.slots ++ [s]
                 slot_numbers := c.slot_numbers ++ [s.number] }) := by
  refine ⟨?_, ?_, ?_⟩
  · intro ops
    have hfresh : ChainInv freshChain := by
      refine ⟨List.nodup_nil, ?_, ?_⟩
      · simp [freshChain]
      · intro s hs
        simp [freshChain] at hs
    have := chainInv_runOps ops freshChain hfresh
    exact ⟨this.1, this.2.1⟩
  · intro c s hmem
    rw [add_slot_to_chain, if_pos hmem]
  · intro c s hmem
    rw [add_slot_to_chain, if_neg hmem]

/-- Witness for C6: a concrete reachable state is duplicate-free;
re-adding slotA to a chain that already holds slot number 1 is a no-op; and
adding slotB to a fresh chain records it. -/
theorem C6_no_two_slots_share_number_witness :
    (runOps freshChain [ChainOp.addBatch [slotA, slotB] false]).slot_numbers.Nodup ∧
    add_slot_to_chain memChain slotA = memChain ∧
    add_slot_to_chain freshChain slotB =
      { freshChain with slots := freshChain.slots ++ [slotB]
                        slot_numbers := freshChain.slot_numbers ++ [slotB.number] } := by
  refine ⟨(C6_no_two_slots_share_number.1 [ChainOp.addBatch [slotA, slotB] false]).1,
    C6_no_two_slots_share_number.2.1 memChain slotA (by decide),
    C6_no_two_slots_share_number.2.2 freshChain slotB (by decide)⟩

/-- C10: add_slots_to_chain hands the WHOLE argument list to the
aggregation engine, duplicates included: re-submitting a slot whose number
is already in the dedup list leaves the slot list and the dedup list
unchanged, yet appends a freshly aggregated row for that slot to the
running table (inflating the counts), with no error. -/
theorem C10_duplicate_slot_inflates_table
    (c : SolanaChain) (s : Slot) (flush : Bool) (newRows : List AggRow)
    (hmem : s.number ∈ c.slot_numbers)
    (hagg : getCountData (slotToRows (setBatch (c.batch_number + 1) s)) =
      .ok newRows) :
    (add_slots_to_chain c [s] flush).1.slot_numbers = c.slot_numbers ∧
    (add_slots_to_chain c [s] flush).1.df =
      some (sortByTs ((c.df.getD []) ++ newRows)) ∧
    (add_slots_to_chain c [s] flush).2 = none := by
  have hskip : add_slot_to_chain { c with batch_number := c.batch_number + 1 }
      (setBatch (c.batch_number + 1) s) =
      { c with batch_number := c.batch_number + 1 } := by
    rw [add_slot_to_chain, if_pos]
    exact hmem
  have hflat : (([setBatch (c.batch_number + 1) s].map slotToRows)).flatten =
      slotToRows (setBatch (c.batch_number + 1) s) := by
    simp
  unfold add_slots_to_chain
  simp only [List.map_cons, List.map_nil, List.foldl_cons, List.foldl_nil]
  rw [hskip]
  unfold update_df
  rw [hflat, hagg]
  cases flush <;> exact ⟨rfl, rfl, rfl⟩

/-- Membership in the first-occurrence dedup fold. -/
theorem mem_foldl_dedup {α : Type} [DecidableEq α] (l : List α) :
    ∀ (acc : List α) (a : α),
      (a ∈ l.foldl (fun acc x => if x ∈ acc then acc else acc ++ [x]) acc) ↔
        (a ∈ acc ∨ a ∈ l) := by
  induction l with
  | nil => intro acc a; simp
  | cons b bs ih =>
    intro acc a
    rw [List.foldl_cons, ih]
    by_cases hb : b ∈ acc
    · rw [if_pos hb]
      constructor
      · rintro (h | h)
        · exact Or.inl h
        · exact Or.inr (List.mem_cons_of_mem b h)
      · rintro (h | h)
        · exact Or.inl h
        · rcases List.mem_cons.mp h with rfl | h
          · exact Or.inl hb
          · exact Or.inr h
    · rw [if_neg hb]
      constructor
      · rintro (h | h)
        · rcases List.mem_append.mp h with h | h
          · exact Or.inl h
          · exact Or.inr (List.mem_cons.mpr (Or.inl (List.mem_singleton.mp h)))
        · exact Or.inr (List.mem_cons_of_mem b h)
      · rintro (h | h)
        · exact Or.inl (List.mem_append.mpr (Or.inl h))
        · rcases List.mem_cons.mp h with rfl | h
          · exact Or.inl (List.mem_append.mpr (Or.inr (List.mem_singleton.mpr rfl)))
          · exact Or.inr h

/-- dedupF keeps exactly the members of its input. -/
theorem mem_dedupF {α : Type} [DecidableEq α] (l : List α) (a : α) :
    a ∈ dedupF l ↔ a ∈ l := by
  unfold dedupF
  rw [mem_foldl_dedup]
  simp

/-- The columns of a count table are drawn from the counted values. -/
theorem countVals_cols_sub (ps : List PRow) (g : PRow → String)
    (L : List String) (h : ∀ p ∈ ps, g p ∈ L) :
    (countVals ps g).cols ⊆ L := by
  intro c hc
  have hc' : c ∈ dedupF (ps.map g) := hc
  rw [mem_dedupF] at hc'
  obtain ⟨p, hp, rfl⟩ := List.mem_map.mp hc'
  exact h p hp

/-- Projecting the labels out of a label-value list built by map. -/
theorem map_fst_map_mk {β : Type} (cs : List String) (f : String → β) :
    (cs.map (fun v => (v, f v))).map Prod.fst = cs := by
  induction cs with
  | nil => rfl
  | cons a rest ih => simp [ih]

/-- Renaming labels pointwise by an identity-on-members function is the
identity. -/
theorem pairs_map_id {cells : List (String × Option Nat)}
    {f : String → String} (h : ∀ cv ∈ cells, f cv.1 = cv.1) :
    cells.map (fun cv => (f cv.1, cv.2)) = cells := by
  induction cells with
  | nil => rfl
  | cons a rest ih =>
    simp only [List.map_cons]
    rw [h a (List.mem_cons_self a rest),
      ih (fun cv hcv => h cv (List.mem_cons_of_mem a hcv))]

/-- A map that is the identity on every member is the identity. -/
theorem map_id_of_forall {l : List String} {f : String → String}
    (h : ∀ c ∈ l, f c = c) : l.map f = l :=
  (List.map_congr_left h).trans (List.map_id l)

/-- A successful alookup on the left part of an append persists. -/
theorem alookup_append_of_mem {cells1 cells2 : List (String × Option Nat)}
    {c : String} {v : Option Nat} (h : alookup c cells1 = some v) :
    alookup c (cells1 ++ cells2) = some v := by
  induction cells1 with
  | nil => simp [alookup] at h
  | cons p rest ih =>
    obtain ⟨c', v'⟩ := p
    rw [List.cons_append]
    simp only [alookup] at h ⊢
    by_cases hc : c = c'
    · rw [if_pos hc] at h ⊢; exact h
    · rw [if_neg hc] at h ⊢; exact ih h

/-- alookup skips a left part that does not carry the label. -/
theorem alookup_append_of_not_mem {cells1 cells2 : List (String × Option Nat)}
    {c : String} (h : c ∉ cells1.map Prod.fst) :
    alookup c (cells1 ++ cells2) = alookup c cells2 := by
  induction cells1 with
  | nil => rfl
  | cons p rest ih =>
    obtain ⟨c', v'⟩ := p
    rw [List.cons_append]
    simp only [alookup]
    have hc : c ≠ c' := by
      intro hcc
      exact h (by simp [hcc])
    rw [if_neg hc]
    exact ih (fun hm => h (List.mem_cons_of_mem _ hm))

/-- A label present among the cells admits a lookup result. -/
theorem alookup_isSome_of_mem {cells : List (String × Option Nat)}
    {c : String} (h : c ∈ cells.map Prod.fst) :
    ∃ v, alookup c cells = some v := by
  induction cells with
  | nil => simp at h
  | cons p rest ih =>
    obtain ⟨c', v'⟩ := p
    simp only [alookup]
    by_cases hc : c = c'
    · exact ⟨v', by rw [if_pos hc]⟩
    · have : c ∈ rest.map Prod.fst := by
        rcases List.mem_cons.mp h with h1 | h1
        · exact absurd h1 hc
        · exact h1
      obtain ⟨v, hv⟩ := ih this
      exact ⟨v, by rw [if_neg hc]; exact hv⟩

/-- A successful lookup exhibits a member cell. -/
theorem alookup_mem {cells : List (String × Option Nat)} {c : String}
    {v : Option Nat} (h : alookup c cells = some v) : (c, v) ∈ cells := by
  induction cells with
  | nil => simp [alookup] at h
  | cons p rest ih =>
    obtain ⟨c', v'⟩ := p
    simp only [alookup] at h
    by_cases hc : c = c'
    · rw [if_pos hc] at h
      have hv : v' = v := Option.some.inj h
      subst hv
      subst hc
      exact List.mem_cons_self _ _
    · rw [if_neg hc] at h
      exact List.mem_cons_of_mem _ (ih h)

/-- Lookup of a label in a constant-None cell list. -/
theorem alookup_const_none :
    ∀ (cs : List String) (c : String), c ∈ cs →
      alookup c (cs.map (fun v => (v, (none : Option Nat)))) = some none := by
  intro cs
  induction cs with
  | nil => intro c hc; simp at hc
  | cons a rest ih =>
    intro c hc
    simp only [List.map_cons, alookup]
    by_cases hca : c = a
    · rw [if_pos hca]
    · rw [if_neg hca]
      rcases List.mem_cons.mp hc with h1 | h1
      · exact absurd h1 hca
      · exact ih c h1

/-- A successful key lookup exhibits a member row. -/
theorem lookupKey_mem {k : Int × Int}
    {l : List ((Int × Int) × List (String × Option Nat))}
    {v : List (String × Option Nat)} (h : lookupKey k l = some v) :
    (k, v) ∈ l := by
  induction l with
  | nil => simp [lookupKey] at h
  | cons p rest ih =>
    obtain ⟨k', v'⟩ := p
    simp only [lookupKey] at h
    by_cases hk : k = k'
    · rw [if_pos hk] at h
      have hv : v' = v := Option.some.inj h
      subst hv
      subst hk
      exact List.mem_cons_self _ _
    · rw [if_neg hk] at h
      exact List.mem_cons_of_mem _ (ih h)

/-- Rows of a freshly counted table carry exactly the table's columns. -/
theorem RMC_countVals (ps : List PRow) (g : PRow → String) :
    RMC (countVals ps g) := by
  intro r hr
  obtain ⟨k, hk, rfl⟩ := List.mem_map.mp hr
  exact map_fst_map_mk _ _

/-- Renaming preserves the rows-match-columns invariant. -/
theorem RMC_tagCols (pre : String) (skips : List String) (t : CTable)
    (h : RMC t) : RMC (tagCols pre skips t) := by
  intro r hr
  obtain ⟨r0, hr0, rfl⟩ := List.mem_map.mp hr
  show (r0.2.map fun cv => (renameCol pre skips cv.1, cv.2)).map Prod.fst =
    t.cols.map (renameCol pre skips)
  rw [List.map_map, ← h r0 hr0, List.map_map]
  rfl

/-- Merging preserves the rows-match-columns invariant. -/
theorem RMC_mergeT (df1 df2 : CTable) (h1 : RMC df1) (h2 : RMC df2) :
    RMC (mergeT df1 df2) := by
  intro r hr
  obtain ⟨rL, hrL, rfl⟩ := List.mem_map.mp hr
  cases hx : lookupKey rL.1 df1.rows with
  | some cs =>
    simp only [hx]
    rw [List.map_append, h2 rL hrL, h1 _ (lookupKey_mem hx)]
    rfl
  | none =>
    simp only [hx]
    rw [List.map_append, h2 rL hrL, map_fst_map_mk]
    rfl

/-- Freshly counted tables have no NaN cell. -/
theorem allSome_countVals (ps : List PRow) (g : PRow → String) :
    AllCellsSome (countVals ps g) := by
  intro r hr cv hcv
  obtain ⟨k, hk, rfl⟩ := List.mem_map.mp hr
  obtain ⟨v, hv, rfl⟩ := List.mem_map.mp hcv
  exact ⟨_, rfl⟩

/-- Renaming does not create NaN cells. -/
theorem allSome_tagCols {pre : String} {skips : List String} {t : CTable}
    (h : AllCellsSome t) : AllCellsSome (tagCols pre skips t) := by
  intro r hr cv hcv
  obtain ⟨r0, hr0, rfl⟩ := List.mem_map.mp hr
  obtain ⟨cv0, hcv0, rfl⟩ := List.mem_map.mp hcv
  exact h r0 hr0 cv0 hcv0

/-- In a table whose rows match its columns and whose cells are all numbers,
both status-count cells of every row hold numbers as soon as the two status
columns exist. -/
theorem bothSome_of_allSome (t : CTable) (hRM : RMC t) (hA : AllCellsSome t)
    (hF : "Status_Failed" ∈ t.cols) (hS : "Status_Success" ∈ t.cols) :
    ∀ r ∈ t.rows, bothSomeFS r.2 := by
  intro r hr
  constructor
  · have hmem : "Status_Failed" ∈ r.2.map Prod.fst := by
      rw [hRM r hr]; exact hF
    obtain ⟨v, hv⟩ := alookup_isSome_of_mem hmem
    obtain ⟨n, hn⟩ := hA r hr _ (alookup_mem hv)
    have hn' : v = some n := hn
    exact ⟨n, by rw [hv, hn']⟩
  · have hmem : "Status_Success" ∈ r.2.map Prod.fst := by
      rw [hRM r hr]; exact hS
    obtain ⟨v, hv⟩ := alookup_isSome_of_mem hmem
    obtain ⟨n, hn⟩ := hA r hr _ (alookup_mem hv)
    have hn' : v = some n := hn
    exact ⟨n, by rw [hv, hn']⟩

/-- Column bound of a tagged merge from bounds of its two parts. -/
theorem tag_merge_cols_sub {R L : CTable} {pre : String} {skips : List String}
    {CR CL : List String} (hR : R.cols ⊆ CR) (hL : L.cols ⊆ CL) :
    (tagCols pre skips (mergeT R L)).cols ⊆
      (CL ++ CR).map (renameCol pre skips) := by
  intro c hc
  obtain ⟨c0, hc0, rfl⟩ := List.mem_map.mp hc
  have hc0' : c0 ∈ L.cols ++ R.cols := hc0
  have hc0'' : c0 ∈ CL ++ CR := by
    rcases List.mem_append.mp hc0' with h | h
    · exact List.mem_append.mpr (Or.inl (hL h))
    · exact List.mem_append.mpr (Or.inr (hR h))
  exact List.mem_map.mpr ⟨c0, hc0'', rfl⟩

/-- Statuses of prepared rows live in the closed status vocabulary. -/
theorem prep_status_mem (rows : List TxRow) (hwf : wfRows rows) :
    ∀ p ∈ prepRows rows, p.row.status ∈ statusNames := by
  intro p hp
  obtain ⟨r, hr, rfl⟩ := List.mem_map.mp hp
  exact (hwf r hr).1

/-- Types of prepared rows live in the closed type taxonomy. -/
theorem prep_type_mem (rows : List TxRow) (hwf : wfRows rows) :
    ∀ p ∈ prepRows rows, p.row.type_ ∈ typeNames := by
  intro p hp
  obtain ⟨r, hr, rfl⟩ := List.mem_map.mp hp
  exact (hwf r hr).2

/-- stepT1's columns are prefixed status names. -/
theorem stepT1_cols_sub (rows : List TxRow) (hwf : wfRows rows) :
    (stepT1 rows).cols ⊆ colsC1 := by
  intro c hc
  obtain ⟨c0, hc0, rfl⟩ := List.mem_map.mp hc
  exact List.mem_map.mpr
    ⟨c0, countVals_cols_sub _ _ _ (prep_status_mem rows hwf) hc0, rfl⟩

/-- stepT2's columns are type names. -/
theorem stepT2_cols_sub (rows : List TxRow) (hwf : wfRows rows) :
    (stepT2 rows).cols ⊆ typeNames :=
  countVals_cols_sub _ _ _ (prep_type_mem rows hwf)

/-- stepT3's columns are type names. -/
theorem stepT3_cols_sub (rows : List TxRow) (hwf : wfRows rows) :
    (stepT3 rows).cols ⊆ typeNames :=
  countVals_cols_sub _ _ _
    (fun p hp => prep_type_mem rows hwf p (List.mem_of_mem_filter hp))

/-- stepT4's columns are type names. -/
theorem stepT4_cols_sub (rows : List TxRow) (hwf : wfRows rows) :
    (stepT4 rows).cols ⊆ typeNames :=
  countVals_cols_sub _ _ _
    (fun p hp => prep_type_mem rows hwf p (List.mem_of_mem_filter hp))

/-- stepM2's columns are bounded by the concrete list colsC2. -/
theorem stepM2_cols_sub (rows : List TxRow) (hwf : wfRows rows) :
    (stepM2 rows).cols ⊆ colsC2 :=
  tag_merge_cols_sub (stepT1_cols_sub rows hwf) (stepT2_cols_sub rows hwf)

/-- stepM3's columns are bounded by the concrete list colsC3. -/
theorem stepM3_cols_sub (rows : List TxRow) (hwf : wfRows rows) :
    (stepM3 rows).cols ⊆ colsC3 :=
  tag_merge_cols_sub (stepM2_cols_sub rows hwf) (stepT3_cols_sub rows hwf)

/-- stepM4's columns are bounded by the concrete list colsC4. -/
theorem stepM4_cols_sub (rows : List TxRow) (hwf : wfRows rows) :
    (stepM4 rows).cols ⊆ colsC4 :=
  tag_merge_cols_sub (stepM3_cols_sub rows hwf) (stepT4_cols_sub rows hwf)

/-- Rows of stepT1 match its columns. -/
theorem RMC_stepT1 (rows : List TxRow) : RMC (stepT1 rows) :=
  RMC_tagCols _ _ _ (RMC_countVals _ _)

/-- Rows of stepM2 match its columns. -/
theorem RMC_stepM2 (rows : List TxRow) : RMC (stepM2 rows) :=
  RMC_tagCols _ _ _ (RMC_mergeT _ _ (RMC_stepT1 rows) (RMC_countVals _ _))

/-- Rows of stepM3 match its columns. -/
theorem RMC_stepM3 (rows : List TxRow) : RMC (stepM3 rows) :=
  RMC_tagCols _ _ _ (RMC_mergeT _ _ (RMC_stepM2 rows) (RMC_countVals _ _))

/-- Rows of stepM4 match its columns. -/
theorem RMC_stepM4 (rows : List TxRow) : RMC (stepM4 rows) :=
  RMC_tagCols _ _ _ (RMC_mergeT _ _ (RMC_stepM3 rows) (RMC_countVals _ _))

/-- Core step of the synchronization argument: in a prefixed left merge whose
left table cannot produce the two status column names and whose right table's
columns survive the renaming unchanged, both status cells of every result row
are numbers together or NaN together, provided this held of the right table. -/
theorem sync_merge_tag (R L : CTable) (pre : String) (skips : List String)
    (hLM : RMC L)
    (hLF : "Status_Failed" ∉ L.cols.map (renameCol pre skips))
    (hLS : "Status_Success" ∉ L.cols.map (renameCol pre skips))
    (hRM : RMC R)
    (hRid : ∀ c ∈ R.cols, renameCol pre skips c = c)
    (hR : "Status_Failed" ∈ R.cols → "Status_Success" ∈ R.cols →
      ∀ r ∈ R.rows, syncFS r.2)
    (hF : "Status_Failed" ∈ (tagCols pre skips (mergeT R L)).cols)
    (hS : "Status_Success" ∈ (tagCols pre skips (mergeT R L)).cols) :
    ∀ r ∈ (tagCols pre skips (mergeT R L)).rows, syncFS r.2 := by
  have hRidm : R.cols.map (renameCol pre skips) = R.cols := map_id_of_forall hRid
  have hcols : (tagCols pre skips (mergeT R L)).cols =
      L.cols.map (renameCol pre skips) ++ R.cols.map (renameCol pre skips) := by
    show (L.cols ++ R.cols).map (renameCol pre skips) = _
    rw [List.map_append]
  have hFR : "Status_Failed" ∈ R.cols := by
    rw [hcols] at hF
    rcases List.mem_append.mp hF with h | h
    · exact absurd h hLF
    · rwa [hRidm] at h
  have hSR : "Status_Success" ∈ R.cols := by
    rw [hcols] at hS
    rcases List.mem_append.mp hS with h | h
    · exact absurd h hLS
    · rwa [hRidm] at h
  intro r hr
  obtain ⟨r0, hr0, rfl⟩ := List.mem_map.mp hr
  obtain ⟨rL, hrL, rfl⟩ := List.mem_map.mp hr0
  have hAfst : ((rL.2.map (fun cv =>
      (renameCol pre skips cv.1, cv.2))).map Prod.fst) =
      L.cols.map (renameCol pre skips) := by
    rw [List.map_map, ← hLM rL hrL, List.map_map]
    rfl
  cases hx : lookupKey rL.1 R.rows with
  | some cs =>
    simp only [hx]
    have hcskeys : cs.map Prod.fst = R.cols := hRM _ (lookupKey_mem hx)
    have hcsid : cs.map (fun cv => (renameCol pre skips cv.1, cv.2)) = cs := by
      apply pairs_map_id
      intro cv hcv
      exact hRid cv.1 (by rw [← hcskeys]; exact List.mem_map.mpr ⟨cv, hcv, rfl⟩)
    rw [List.map_append, hcsid]
    have hsync := hR hFR hSR (rL.1, cs) (lookupKey_mem hx)
    have hgF : alookup "Status_Failed"
        (rL.2.map (fun cv => (renameCol pre skips cv.1, cv.2)) ++ cs) =
        alookup "Status_Failed" cs :=
      alookup_append_of_not_mem (by rw [hAfst]; exact hLF)
    have hgS : alookup "Status_Success"
        (rL.2.map (fun cv => (renameCol pre skips cv.1, cv.2)) ++ cs) =
        alookup "Status_Success" cs :=
      alookup_append_of_not_mem (by rw [hAfst]; exact hLS)
    unfold syncFS bothSomeFS at hsync ⊢
    rw [hgF, hgS]
    exact hsync
  | none =>
    simp only [hx]
    have hconstid : (R.cols.map (fun c => (c, (none : Option Nat)))).map
        (fun cv => (renameCol pre skips cv.1, cv.2)) =
        R.cols.map (fun c => (c, (none : Option Nat))) := by
      apply pairs_map_id
      intro cv hcv
      obtain ⟨c0, hc0, rfl⟩ := List.mem_map.mp hcv
      exact hRid c0 hc0
    rw [List.map_append, hconstid]
    right
    constructor
    · rw [alookup_append_of_not_mem (by rw [hAfst]; exact hLF)]
      exact alookup_const_none R.cols _ hFR
    · rw [alookup_append_of_not_mem (by rw [hAfst]; exact hLS)]
      exact alookup_const_none R.cols _ hSR

/-- stepT1 rows have number-valued status cells whenever both status columns
exist (base case of the synchronization argument). -/
theorem stepT1_syncFS (rows : List TxRow)
    (hF : "Status_Failed" ∈ (stepT1 rows).cols)
    (hS : "Status_Success" ∈ (stepT1 rows).cols) :
    ∀ r ∈ (stepT1 rows).rows, syncFS r.2 :=
  fun r hr => Or.inl (bothSome_of_allSome _ (RMC_stepT1 rows)
    (allSome_tagCols (allSome_countVals _ _)) hF hS r hr)

/-- Synchronization through the Type_ merge. -/
theorem stepM2_syncFS (rows : List TxRow) (hwf : wfRows rows)
    (hF : "Status_Failed" ∈ (stepM2 rows).cols)
    (hS : "Status_Success" ∈ (stepM2 rows).cols) :
    ∀ r ∈ (stepM2 rows).rows, syncFS r.2 := by
  have hd : ∀ c ∈ typeNames,
      renameCol "Type_" ["Status_"] c ≠ "Status_Failed" ∧
      renameCol "Type_" ["Status_"] c ≠ "Status_Success" := by decide
  have hid : ∀ c ∈ colsC1, renameCol "Type_" ["Status_"] c = c := by decide
  show ∀ r ∈ (tagCols "Type_" ["Status_"]
    (mergeT (stepT1 rows) (stepT2 rows))).rows, syncFS r.2
  apply sync_merge_tag (stepT1 rows) (stepT2 rows) "Type_" ["Status_"]
  · exact RMC_countVals _ _
  · intro hmem
    obtain ⟨c0, hc0, heq⟩ := List.mem_map.mp hmem
    exact (hd c0 (stepT2_cols_sub rows hwf hc0)).1 heq
  · intro hmem
    obtain ⟨c0, hc0, heq⟩ := List.mem_map.mp hmem
    exact (hd c0 (stepT2_cols_sub rows hwf hc0)).2 heq
  · exact RMC_stepT1 rows
  · intro c hc
    exact hid c (stepT1_cols_sub rows hwf hc)
  · exact stepT1_syncFS rows
  · exact hF
  · exact hS

/-- Synchronization through the Success_ merge. -/
theorem stepM3_syncFS (rows : List TxRow) (hwf : wfRows rows)
    (hF : "Status_Failed" ∈ (stepM3 rows).cols)
    (hS : "Status_Success" ∈ (stepM3 rows).cols) :
    ∀ r ∈ (stepM3 rows).rows, syncFS r.2 := by
  have hd : ∀ c ∈ typeNames,
      renameCol "Success_" ["Status_", "Type_"] c ≠ "Status_Failed" ∧
      renameCol "Success_" ["Status_", "Type_"] c ≠ "Status_Success" := by
    decide
  have hid : ∀ c ∈ colsC2,
      renameCol "Success_" ["Status_", "Type_"] c = c := by decide
  show ∀ r ∈ (tagCols "Success_" ["Status_", "Type_"]
    (mergeT (stepM2 rows) (stepT3 rows))).rows, syncFS r.2
  apply sync_merge_tag (stepM2 rows) (stepT3 rows) "Success_"
    ["Status_", "Type_"]
  · exact RMC_countVals _ _
  · intro hmem
    obtain ⟨c0, hc0, heq⟩ := List.mem_map.mp hmem
    exact (hd c0 (stepT3_cols_sub rows hwf hc0)).1 heq
  · intro hmem
    obtain ⟨c0, hc0, heq⟩ := List.mem_map.mp hmem
    exact (hd c0 (stepT3_cols_sub rows hwf hc0)).2 heq
  · exact RMC_stepM2 rows
  · intro c hc
    exact hid c (stepM2_cols_sub rows hwf hc)
  · exact stepM2_syncFS rows hwf
  · exact hF
  · exact hS

/-- Synchronization through the Failed_ merge: in every row of the final
count table the two status cells are numbers together or NaN together. -/
theorem stepM4_syncFS (rows : List TxRow) (hwf : wfRows rows)
    (hF : "Status_Failed" ∈ (stepM4 rows).cols)
    (hS : "Status_Success" ∈ (stepM4 rows).cols) :
    ∀ r ∈ (stepM4 rows).rows, syncFS r.2 := by
  have hd : ∀ c ∈ typeNames,
      renameCol "Failed_" ["Status_", "Type_", "Success_"] c ≠ "Status_Failed" ∧
      renameCol "Failed_" ["Status_", "Type_", "Success_"] c ≠ "Status_Success" := by
    decide
  have hid : ∀ c ∈ colsC3,
      renameCol "Failed_" ["Status_", "Type_", "Success_"] c = c := by decide
  show ∀ r ∈ (tagCols "Failed_" ["Status_", "Type_", "Success_"]
    (mergeT (stepM3 rows) (stepT4 rows))).rows, syncFS r.2
  apply sync_merge_tag (stepM3 rows) (stepT4 rows) "Failed_"
    ["Status_", "Type_", "Success_"]
  · exact RMC_countVals _ _
  · intro hmem
    obtain ⟨c0, hc0, heq⟩ := List.mem_map.mp hmem
    exact (hd c0 (stepT4_cols_sub rows hwf hc0)).1 heq
  · intro hmem
    obtain ⟨c0, hc0, heq⟩ := List.mem_map.mp hmem
    exact (hd c0 (stepT4_cols_sub rows hwf hc0)).2 heq
  · exact RMC_stepM3 rows
  · intro c hc
    exact hid c (stepM3_cols_sub rows hwf hc)
  · exact stepM3_syncFS rows hwf
  · exact hF
  · exact hS

/-- Reading a canonical cell that holds a number. -/
theorem cellNat_eq {cols : List String} {cells : List (String × Option Nat)}
    {c : String} {n : Nat} (hc : c ∈ cols)
    (h : alookup c cells = some (some n)) : cellNat cols cells c = n := by
  simp [cellNat, hc, h]

/-- Reading a canonical cell that holds NaN yields the 0 fill. -/
theorem cellNat_zero_of_none {cols : List String}
    {cells : List (String × Option Nat)} {c : String} (hc : c ∈ cols)
    (h : alookup c cells = some none) : cellNat cols cells c = 0 := by
  simp [cellNat, hc, h]

/-- C2: in every aggregate row the aggregation engine produces, the Total
column equals Status_Success + Status_Failed (transactions of Unknown status
are not counted in Total).  Well-formedness only records that statuses and
types come from the closed vocabularies the classifier emits. -/
theorem C2_total_eq_success_plus_failed (rows : List TxRow)
    (hwf : wfRows rows) (out : List AggRow)
    (hok : getCountData rows = .ok out) :
    ∀ r ∈ out, r.total = r.statusSuccess + r.statusFailed := by
  simp only [getCountData] at hok
  by_cases hF : "Status_Failed" ∈ (stepM4 rows).cols
  · rw [if_pos hF] at hok
    by_cases hS : "Status_Success" ∈ (stepM4 rows).cols
    · rw [if_pos hS] at hok
      have hout : ((addTotal (stepM4 rows)).rows.map
          (toAggRow (addTotal (stepM4 rows)).cols)) = out := by
        injection hok
      subst hout
      intro r hr
      obtain ⟨r1, hr1, rfl⟩ := List.mem_map.mp hr
      obtain ⟨r0, hr0, rfl⟩ := List.mem_map.mp hr1
      have hm4sub := stepM4_cols_sub rows hwf
      have hkeys : r0.2.map Prod.fst = (stepM4 rows).cols :=
        RMC_stepM4 rows r0 hr0
      have hTotNot : "Total" ∉ r0.2.map Prod.fst := by
        rw [hkeys]
        intro hmem
        exact (by decide : "Total" ∉ colsC4) (hm4sub hmem)
      have hTot : alookup "Total" (r0.2 ++ [("Total", totalCell r0.2)]) =
          some (totalCell r0.2) := by
        rw [alookup_append_of_not_mem hTotNot]
        simp [alookup]
      have hTotMem : "Total" ∈ (addTotal (stepM4 rows)).cols := by
        show "Total" ∈ (stepM4 rows).cols ++ ["Total"]
        exact List.mem_append.mpr (Or.inr (List.mem_singleton.mpr rfl))
      have hFMem : "Status_Failed" ∈ (addTotal (stepM4 rows)).cols := by
        show "Status_Failed" ∈ (stepM4 rows).cols ++ ["Total"]
        exact List.mem_append.mpr (Or.inl hF)
      have hSMem : "Status_Success" ∈ (addTotal (stepM4 rows)).cols := by
        show "Status_Success" ∈ (stepM4 rows).cols ++ ["Total"]
        exact List.mem_append.mpr (Or.inl hS)
      have hsync := stepM4_syncFS rows hwf hF hS r0 hr0
      rcases hsync with ⟨⟨a, ha⟩, ⟨b, hb⟩⟩ | ⟨ha, hb⟩
      · have htc : totalCell r0.2 = some (a + b) := by
          simp only [totalCell, ha, hb]
        simp only [toAggRow]
        rw [cellNat_eq hTotMem (by rw [hTot, htc]),
          cellNat_eq hSMem (alookup_append_of_mem hb),
          cellNat_eq hFMem (alookup_append_of_mem ha)]
        exact Nat.add_comm a b
      · have htc : totalCell r0.2 = none := by
          simp only [totalCell, ha, hb]
        simp only [toAggRow]
        rw [cellNat_zero_of_none hTotMem (by rw [hTot, htc]),
          cellNat_zero_of_none hSMem (alookup_append_of_mem hb),
          cellNat_zero_of_none hFMem (alookup_append_of_mem ha)]
    · rw [if_neg hS] at hok
      simp at hok
  · rw [if_neg hF] at hok
    simp at hok

/-- Witness for C2 at the concrete slotA batch. -/
theorem C2_total_eq_success_plus_failed_witness :
    dupAggRow.total = dupAggRow.statusSuccess + dupAggRow.statusFailed :=
  C2_total_eq_success_plus_failed (slotToRows (setBatch 0 slotA))
    (by unfold wfRows; decide) [dupAggRow] (by decide) dupAggRow
    (List.mem_singleton.mpr rfl)

/-- Witness for C10: re-adding slotA to memChain (which already ingested
slot number 1) leaves the dedup list unchanged but appends the slotA
aggregate row to the table again. -/
theorem C10_duplicate_slot_inflates_table_witness :
    (add_slots_to_chain memChain [slotA] false).1.slot_numbers =
        memChain.slot_numbers ∧
    (add_slots_to_chain memChain [slotA] false).1.df =
      some (sortByTs ((memChain.df.getD []) ++ [dupAggRow])) := by
  have h := C10_duplicate_slot_inflates_table memChain slotA false [dupAggRow]
    (by decide) (by decide)
  exact ⟨h.1, h.2.1⟩

/-- With an RPC that has no data for any slot, the inner loop of the
backward exploration never stops: at every nonpositive shift the probe
sn - shift = 100 - shift lies at or above 100, so neither backward break
condition fires, the slot is missing, and the shift only decreases. -/
theorem ecInner_empty_backward_stuck (fuelF : Nat) :
    ∀ (fuel : Nat) (shift : Int), shift ≤ 0 →
      (ecInner rpcEmpty 1 1000 1000 false 100 fuelF shift fuel).2 = none := by
  intro fuel
  induction fuel with
  | zero => intro shift h; rfl
  | succ f ih =>
    intro shift h
    have h1 : ¬((100 : Int) - shift ≤ 100 - 1000 ∨ (100 : Int) - shift < 1) := by
      omega
    simp only [ecInner, probeAt, ecBreak, dirStep, rpcEmpty]
    rw [if_neg (by simpa using h1)]
    exact ih (shift + -1) (by omega)

/-- Extraction only ever fails with MalformedRecord. -/
theorem txFromRaw_error {d : RawTx} {e : RunError}
    (h : txFromRaw d = .error e) : e = .malformedRecord := by
  unfold txFromRaw at h
  cases hs : d.signatures with
  | nil =>
    simp only [hs] at h
    exact (Except.error.inj h).symm
  | cons a l =>
    simp only [hs] at h
    exact Except.noConfusion h

/-- Building a transaction list only ever fails with MalformedRecord. -/
theorem mapTx_error : ∀ {l : List RawTx} {e : RunError},
    mapTx l = .error e → e = .malformedRecord := by
  intro l
  induction l with
  | nil => intro e h; simp [mapTx] at h
  | cons d rest ih =>
    intro e h
    simp only [mapTx] at h
    cases ht : txFromRaw d with
    | error e1 =>
      simp only [ht] at h
      exact (Except.error.inj h) ▸ txFromRaw_error ht
    | ok t =>
      simp only [ht] at h
      cases hm : mapTx rest with
      | error e2 =>
        simp only [hm] at h
        exact (Except.error.inj h) ▸ ih hm
      | ok ts =>
        simp only [hm] at h
        exact Except.noConfusion h

/-- Slot construction only ever fails with MalformedRecord. -/
theorem slotFromBlock_error {n : Int} {b : Block} {e : RunError}
    (h : slotFromBlock n b = .error e) : e = .malformedRecord := by
  unfold slotFromBlock at h
  cases hm : mapTx b.transactions with
  | error e1 =>
    simp only [hm] at h
    exact (Except.error.inj h) ▸ mapTx_error hm
  | ok txs =>
    simp only [hm] at h
    exact Except.noConfusion h

/-- A successfully constructed slot carries the probed number. -/
theorem slotFromBlock_number {n : Int} {b : Block} {s : Slot}
    (h : slotFromBlock n b = .ok s) : s.number = n := by
  unfold slotFromBlock at h
  cases hm : mapTx b.transactions with
  | error e =>
    simp only [hm] at h
    exact Except.noConfusion h
  | ok txs =>
    simp only [hm] at h
    rw [← Except.ok.inj h]

/-- The aggregation engine only ever fails with a KeyError. -/
theorem getCountData_error {rows : List TxRow} {e : RunError}
    (h : getCountData rows = .error e) : ∃ c, e = .keyErr c := by
  simp only [getCountData] at h
  by_cases hF : "Status_Failed" ∈ (stepM4 rows).cols
  · rw [if_pos hF] at h
    by_cases hS : "Status_Success" ∈ (stepM4 rows).cols
    · rw [if_pos hS] at h
      simp at h
    · rw [if_neg hS] at h
      exact ⟨_, (Except.error.inj h).symm⟩
  · rw [if_neg hF] at h
    exact ⟨_, (Except.error.inj h).symm⟩

/-- update_df only ever fails with a KeyError. -/
theorem update_df_error {c : SolanaChain} {slots : List Slot} {flush : Bool}
    {e : RunError} (h : (update_df c slots flush).2 = some e) :
    ∃ s, e = .keyErr s := by
  unfold update_df at h
  cases hg : getCountData ((slots.map slotToRows).flatten) with
  | error e1 =>
    simp only [hg] at h
    exact (Option.some.inj h) ▸ getCountData_error hg
  | ok rows =>
    simp only [hg] at h
    cases flush with
    | false => simp at h
    | true => simp at h

/-- add_slots_to_chain only ever fails with a KeyError. -/
theorem add_slots_error {c : SolanaChain} {slots : List Slot} {flush : Bool}
    {e : RunError} (h : (add_slots_to_chain c slots flush).2 = some e) :
    ∃ s, e = .keyErr s := by
  unfold add_slots_to_chain at h
  exact update_df_error h

/-- One boundary probe only ever fails with MalformedRecord. -/
theorem getSlotW_error {rpc : Int → Option Block} {spb : Int} {ref : Slot}
    {shift : Int} {e : RunError}
    (h : (getSlotWithinTimeRange rpc spb ref shift).2 = .error e) :
    e = .malformedRecord := by
  unfold getSlotWithinTimeRange at h
  cases hb : rpc (ref.number + shift) with
  | none =>
    simp only [hb] at h
    exact Except.noConfusion h
  | some b =>
    simp only [hb] at h
    by_cases ht : ((((ref.timestamp.getD 0) - b.blockTime).natAbs : Int) ≤ spb)
    · rw [if_pos ht] at h
      cases hs : slotFromBlock (ref.number + shift) b with
      | error e1 =>
        simp only [hs] at h
        exact (Except.error.inj h) ▸ slotFromBlock_error hs
      | ok s =>
        simp only [hs] at h
        exact Except.noConfusion h
    · rw [if_neg ht] at h
      exact Except.noConfusion h

/-- The boundary-search loop only ever fails with MalformedRecord. -/
theorem findSlotsLoop_error (rpc : Int → Option Block) (spb latest : Int)
    (ref : Slot) (fwd : Bool) :
    ∀ (fuel : Nat) (found : List Slot) (shift : Int) (e : RunError),
      (findSlotsLoop rpc spb latest ref fwd found shift fuel).2 =
        some (.error e) →
      e = .malformedRecord := by
  intro fuel
  induction fuel with
  | zero => intro found shift e h; simp [findSlotsLoop] at h
  | succ f ih =>
    intro found shift e h
    simp only [findSlotsLoop] at h
    cases hg : (getSlotWithinTimeRange rpc spb ref shift).2 with
    | error e1 =>
      simp only [hg] at h
      simp only [Option.some.injEq, Except.error.injEq] at h
      exact h ▸ getSlotW_error hg
    | ok o =>
      cases o with
      | none => simp only [hg] at h; simp at h
      | some s =>
        simp only [hg] at h
        by_cases hn : s.number = -1
        · rw [if_pos hn] at h; simp at h
        · rw [if_neg hn] at h
          by_cases hl : ref.number + (shift + dirStep fwd) > latest
          · rw [if_pos hl] at h; simp at h
          · rw [if_neg hl] at h
            exact ih _ _ _ h

/-- The inner update_slots loop never fails with NotInitialized. -/
theorem usInner_no_notInit (rpc : Int → Option Block)
    (spb latest jump sn : Int) (fuelF : Nat) :
    ∀ (fuel : Nat) (shift : Int) (e : RunError),
      (usInner rpc spb latest jump sn fuelF shift fuel).2 =
        some (.error e) →
      e ≠ .notInitialized := by
  intro fuel
  induction fuel with
  | zero => intro shift e h; simp [usInner] at h
  | succ f ih =>
    intro shift e h
    simp only [usInner] at h
    by_cases hbrk : sn + shift ≥ sn + jump ∨ sn + shift > latest
    · rw [if_pos hbrk] at h; simp at h
    · rw [if_neg hbrk] at h
      cases hb : rpc (sn + shift) with
      | none =>
        simp only [hb] at h
        exact ih (shift + 1) e h
      | some b =>
        simp only [hb] at h
        by_cases hspb : spb ≠ 0
        · rw [if_pos hspb] at h
          cases hsb : slotFromBlock (sn + shift) b with
          | error e1 =>
            simp only [hsb] at h
            simp only [Option.some.injEq, Except.error.injEq] at h
            rw [← h, slotFromBlock_error hsb]
            decide
          | ok s =>
            simp only [hsb] at h
            cases hf : (find_slots_in_range rpc spb latest s true fuelF).2 with
            | none => simp only [hf] at h; simp at h
            | some exr =>
              cases exr with
              | error e1 =>
                simp only [hf] at h
                simp only [Option.some.injEq, Except.error.injEq] at h
                rw [← h, findSlotsLoop_error rpc spb latest s true fuelF
                  [s] (dirStep true) e1 hf]
                decide
              | ok v =>
                cases v with
                | inl sh =>
                  simp only [hf] at h
                  exact ih (shift + sh) e h
                | inr slots => simp only [hf] at h; simp at h
        · rw [if_neg hspb] at h
          cases hsb : slotFromBlock (sn + shift) b with
          | error e1 =>
            simp only [hsb] at h
            simp only [Option.some.injEq, Except.error.injEq] at h
            rw [← h, slotFromBlock_error hsb]
            decide
          | ok s => simp only [hsb] at h; simp at h

/-- The outer update_slots loop never yields a NotInitialized failure. -/
theorem usOuter_no_notInit (rpc : Int → Option Block)
    (spb latest jump nUpdates : Int) (flush : Bool) (fuelI fuelF : Nat) :
    ∀ (fuelO : Nat) (c : SolanaChain) (sn sc : Int)
      (res : SolanaChain × Option RunError),
      (usOuter rpc spb latest jump nUpdates flush fuelI fuelF
        c sn sc fuelO).2 = some res →
      res.2 ≠ some RunError.notInitialized := by
  intro fuelO
  induction fuelO with
  | zero => intro c sn sc res h; simp [usOuter] at h
  | succ f ih =>
    intro c sn sc res h
    simp only [usOuter] at h
    by_cases hc : sn + jump ≤ latest ∧ sc < nUpdates
    · rw [if_pos hc] at h
      cases hi : (usInner rpc spb latest jump (sn + jump) fuelF 0 fuelI).2 with
      | none => simp only [hi] at h; simp at h
      | some exr =>
        cases exr with
        | error e1 =>
          simp only [hi] at h
          simp only [Option.some.injEq] at h
          rw [← h]
          intro hcon
          exact usInner_no_notInit rpc spb latest jump (sn + jump) fuelF
            fuelI 0 e1 hi (Option.some.inj hcon)
        | ok found =>
          simp only [hi] at h
          cases found with
          | nil => exact ih c (sn + jump) _ res h
          | cons s rest =>
            cases ha : (add_slots_to_chain c (s :: rest) flush).2 with
            | some e1 =>
              simp only [ha] at h
              simp only [Option.some.injEq] at h
              rw [← h]
              intro hcon
              obtain ⟨str, hstr⟩ := add_slots_error ha
              rw [hstr] at hcon
              simp at hcon
            | none =>
              simp only [ha] at h
              exact ih _ (sn + jump) _ res h
    · rw [if_neg hc] at h
      simp only [Option.some.injEq] at h
      rw [← h]
      simp

/-- C9: update_slots raises NotInitialized exactly when the running table is
None or empty; in that case no probe is issued and the ledger state is
returned unchanged; when the table has rows, no outcome of the pass is a
NotInitialized failure. -/
theorem C9_update_slots_not_initialized_iff (rpc : Int → Option Block)
    (latest jump spb : Int) (flush : Bool) (nUpdates : Int)
    (c : SolanaChain) (fuelO fuelI fuelF : Nat) :
    ((c.df = none ∨ c.df = some []) →
      update_slots rpc latest jump spb flush nUpdates c fuelO fuelI fuelF =
        ([], some (c, some .notInitialized))) ∧
    (∀ rows : List AggRow, c.df = some rows → rows ≠ [] →
      ∀ res : SolanaChain × Option RunError,
        (update_slots rpc latest jump spb flush nUpdates c
          fuelO fuelI fuelF).2 = some res →
        res.2 ≠ some RunError.notInitialized) := by
  constructor
  · rintro (hdf | hdf) <;> simp [update_slots, hdf]
  · intro rows hdf hne res h
    rcases rows with _ | ⟨r0, rest⟩
    · exact absurd rfl hne
    · simp only [update_slots, hdf, List.isEmpty_cons] at h
      by_cases hup : maxMaxSlot (r0 :: rest) ≥ latest ∨
          maxMaxSlot (r0 :: rest) + jump > latest
      · rw [if_pos hup] at h
        have h2 : some (c, (none : Option RunError)) = some res := h
        rw [← Option.some.inj h2]
        simp
      · rw [if_neg hup] at h
        exact usOuter_no_notInit rpc spb latest jump nUpdates flush
          fuelI fuelF fuelO c (maxMaxSlot (r0 :: rest)) _ res h

/-- The single probe one boundary step issues. -/
theorem getSlotW_probes (rpc : Int → Option Block) (spb : Int) (ref : Slot)
    (shift : Int) :
    (getSlotWithinTimeRange rpc spb ref shift).1 = [ref.number + shift] :=
  rfl

/-- Every probe of a forward boundary search using a positive shift lies
strictly above any cursor below the reference slot number. -/
theorem findSlotsLoop_probes_gt (rpc : Int → Option Block)
    (spb latest : Int) (ref : Slot) (cursor : Int)
    (hc : cursor < ref.number) :
    ∀ (fuel : Nat) (found : List Slot) (shift : Int), 1 ≤ shift →
      ∀ p ∈ (findSlotsLoop rpc spb latest ref true found shift fuel).1,
        cursor < p := by
  intro fuel
  induction fuel with
  | zero => intro found shift hsh p hp; simp [findSlotsLoop] at hp
  | succ f ih =>
    intro found shift hsh p hp
    simp only [findSlotsLoop, dirStep, getSlotW_probes] at hp
    cases hg : (getSlotWithinTimeRange rpc spb ref shift).2 with
    | error e1 =>
      simp only [hg] at hp
      have : p = ref.number + shift := by simpa using hp
      omega
    | ok o =>
      cases o with
      | none =>
        simp only [hg] at hp
        have : p = ref.number + shift := by simpa using hp
        omega
      | some s =>
        simp only [hg] at hp
        by_cases hn : s.number = -1
        · rw [if_pos hn] at hp
          have : p = ref.number + shift := by simpa using hp
          omega
        · rw [if_neg hn] at hp
          by_cases hl : ref.number + (shift + 1) > latest
          · rw [if_pos hl] at hp
            have : p = ref.number + shift := by simpa using hp
            omega
          · rw [if_neg hl] at hp
            have hp2 : p = ref.number + shift ∨
                p ∈ (findSlotsLoop rpc spb latest ref true
                  (found ++ [s]) (shift + 1) f).1 := by
              simpa using hp
            rcases hp2 with h1 | h1
            · omega
            · exact ih _ (shift + 1) (by omega) p h1

/-- A miss reported by a forward boundary search carries a positive shift. -/
theorem findSlotsLoop_inl_ge (rpc : Int → Option Block) (spb latest : Int)
    (ref : Slot) :
    ∀ (fuel : Nat) (found : List Slot) (shift sh : Int), 1 ≤ shift →
      (findSlotsLoop rpc spb latest ref true found shift fuel).2 =
        some (.ok (Sum.inl sh)) →
      1 ≤ sh := by
  intro fuel
  induction fuel with
  | zero => intro found shift sh hsh h; simp [findSlotsLoop] at h
  | succ f ih =>
    intro found shift sh hsh h
    simp only [findSlotsLoop, dirStep, getSlotW_probes] at h
    cases hg : (getSlotWithinTimeRange rpc spb ref shift).2 with
    | error e1 => simp only [hg] at h; simp at h
    | ok o =>
      cases o with
      | none =>
        simp only [hg] at h
        simp only [Option.some.injEq, Except.ok.injEq, Sum.inl.injEq] at h
        omega
      | some s =>
        simp only [hg] at h
        by_cases hn : s.number = -1
        · rw [if_pos hn] at h; simp at h
        · rw [if_neg hn] at h
          by_cases hl : ref.number + (shift + 1) > latest
          · rw [if_pos hl] at h; simp at h
          · rw [if_neg hl] at h
            exact ih _ (shift + 1) sh (by omega) h

/-- Every probe of the inner update_slots loop at a window start sn lies
strictly above the cursor, provided cursor + jump ≤ sn or jump ≤ 0 (in the
latter case the window is exhausted before any probe). -/
theorem usInner_probes_gt (rpc : Int → Option Block)
    (spb latest jump sn cursor : Int) (fuelF : Nat)
    (hsn : cursor + jump ≤ sn ∨ jump ≤ 0) :
    ∀ (fuel : Nat) (shift : Int), 0 ≤ shift →
      ∀ p ∈ (usInner rpc spb latest jump sn fuelF shift fuel).1,
        cursor < p := by
  intro fuel
  induction fuel with
  | zero => intro shift h0 p hp; simp [usInner] at hp
  | succ f ih =>
    intro shift h0 p hp
    simp only [usInner] at hp
    by_cases hbrk : sn + shift ≥ sn + jump ∨ sn + shift > latest
    · rw [if_pos hbrk] at hp; simp at hp
    · rw [if_neg hbrk] at hp
      rw [not_or] at hbrk
      obtain ⟨hb1, hb2⟩ := hbrk
      have hj : 0 < jump := by omega
      have hcs : cursor + jump ≤ sn := by
        rcases hsn with h | h
        · exact h
        · omega
      have hn : cursor < sn + shift := by omega
      cases hb : rpc (sn + shift) with
      | none =>
        simp only [hb] at hp
        rcases List.mem_cons.mp hp with rfl | h1
        · exact hn
        · exact ih (shift + 1) (by omega) p h1
      | some b =>
        simp only [hb] at hp
        by_cases hspb : spb ≠ 0
        · rw [if_pos hspb] at hp
          cases hsb : slotFromBlock (sn + shift) b with
          | error e1 =>
            simp only [hsb] at hp
            have : p = sn + shift := by simpa using hp
            omega
          | ok s =>
            simp only [hsb] at hp
            have hsnum : cursor < s.number := by
              rw [slotFromBlock_number hsb]; exact hn
            cases hf : (find_slots_in_range rpc spb latest s true fuelF).2 with
            | none =>
              simp only [hf] at hp
              rcases List.mem_cons.mp hp with rfl | h1
              · exact hn
              · exact findSlotsLoop_probes_gt rpc spb latest s cursor hsnum
                  fuelF [s] 1 (le_refl 1) p h1
            | some exr =>
              cases exr with
              | error e1 =>
                simp only [hf] at hp
                rcases List.mem_cons.mp hp with rfl | h1
                · exact hn
                · exact findSlotsLoop_probes_gt rpc spb latest s cursor hsnum
                    fuelF [s] 1 (le_refl 1) p h1
              | ok v =>
                cases v with
                | inl sh =>
                  simp only [hf] at hp
                  rcases List.mem_cons.mp hp with rfl | h1
                  · exact hn
                  · rcases List.mem_append.mp h1 with h2 | h2
                    · exact findSlotsLoop_probes_gt rpc spb latest s cursor
                        hsnum fuelF [s] 1 (le_refl 1) p h2
                    · have hshge : 1 ≤ sh :=
                        findSlotsLoop_inl_ge rpc spb latest s fuelF [s]
                          1 sh (le_refl 1) hf
                      exact ih (shift + sh) (by omega) p h2
                | inr slots =>
                  simp only [hf] at hp
                  rcases List.mem_cons.mp hp with rfl | h1
                  · exact hn
                  · exact findSlotsLoop_probes_gt rpc spb latest s cursor
                      hsnum fuelF [s] 1 (le_refl 1) p h1
        · rw [if_neg hspb] at hp
          cases hsb : slotFromBlock (sn + shift) b with
          | error e1 =>
            simp only [hsb] at hp
            have : p = sn + shift := by simpa using hp
            omega
          | ok s =>
            simp only [hsb] at hp
            have : p = sn + shift := by simpa using hp
            omega

/-- Every probe of the outer update_slots loop lies strictly above the
cursor, given cursor ≤ window start (or a nonpositive jump). -/
theorem usOuter_probes_gt (rpc : Int → Option Block)
    (spb latest jump nUpdates : Int) (flush : Bool) (fuelI fuelF : Nat)
    (cursor : Int) :
    ∀ (fuelO : Nat) (c : SolanaChain) (sn sc : Int),
      (jump ≤ 0 ∨ cursor ≤ sn) →
      ∀ p ∈ (usOuter rpc spb latest jump nUpdates flush fuelI fuelF
        c sn sc fuelO).1, cursor < p := by
  intro fuelO
  induction fuelO with
  | zero => intro c sn sc hinv p hp; simp [usOuter] at hp
  | succ f ih =>
    intro c sn sc hinv p hp
    simp only [usOuter] at hp
    by_cases hc : sn + jump ≤ latest ∧ sc < nUpdates
    · rw [if_pos hc] at hp
      have hin : cursor + jump ≤ sn + jump ∨ jump ≤ 0 := by
        rcases hinv with h | h
        · exact Or.inr h
        · exact Or.inl (by omega)
      have hinv2 : jump ≤ 0 ∨ cursor ≤ sn + jump := by
        rcases hinv with h | h
        · exact Or.inl h
        · rcases le_or_lt jump 0 with hj | hj
          · exact Or.inl hj
          · exact Or.inr (by omega)
      cases hi : (usInner rpc spb latest jump (sn + jump) fuelF 0 fuelI).2 with
      | none =>
        simp only [hi] at hp
        exact usInner_probes_gt rpc spb latest jump (sn + jump) cursor
          fuelF hin fuelI 0 (le_refl 0) p hp
      | some exr =>
        cases exr with
        | error e1 =>
          simp only [hi] at hp
          exact usInner_probes_gt rpc spb latest jump (sn + jump) cursor
            fuelF hin fuelI 0 (le_refl 0) p hp
        | ok found =>
          simp only [hi] at hp
          cases found with
          | nil =>
            rcases List.mem_append.mp hp with h1 | h1
            · exact usInner_probes_gt rpc spb latest jump (sn + jump) cursor
                fuelF hin fuelI 0 (le_refl 0) p h1
            · exact ih c (sn + jump) _ hinv2 p h1
          | cons s rest =>
            cases ha : (add_slots_to_chain c (s :: rest) flush).2 with
            | some e1 =>
              simp only [ha] at hp
              exact usInner_probes_gt rpc spb latest jump (sn + jump) cursor
                fuelF hin fuelI 0 (le_refl 0) p hp
            | none =>
              simp only [ha] at hp
              rcases List.mem_append.mp hp with h1 | h1
              · exact usInner_probes_gt rpc spb latest jump (sn + jump) cursor
                  fuelF hin fuelI 0 (le_refl 0) p h1
              · exact ih _ (sn + jump) _ hinv2 p h1
    · rw [if_neg hc] at hp
      simp at hp

/-- store_to_csv only writes a table that has rows. -/
theorem store_nonempty {c : SolanaChain} {rows : List AggRow}
    (h : store_to_csv c = some rows) : rows ≠ [] := by
  unfold store_to_csv at h
  cases hd : c.df with
  | none => simp only [hd] at h; exact Option.noConfusion h
  | some r =>
    simp only [hd] at h
    by_cases hie : r.isEmpty
    · rw [if_pos hie] at h
      exact Option.noConfusion h
    · rw [if_neg hie] at h
      rw [← Option.some.inj h]
      intro hcon
      rw [hcon] at hie
      simp at hie

/-- C7: after persisting the running table and loading it back, an
incremental catch-up pass only ever issues getBlock probes for slot numbers
strictly greater than the Max_Slot_Number cursor recorded in the loaded
table — whatever the RPC collaborator, the latest validated slot, the jump,
the tolerance, the step budget and the fuel. -/
theorem C7_resume_probes_above_cursor (cPrev c0 : SolanaChain)
    (rows : List AggRow) (hstore : store_to_csv cPrev = some rows)
    (rpc : Int → Option Block) (latest jump spb : Int) (flush : Bool)
    (nUpdates : Int) (fuelO fuelI fuelF : Nat) :
    ∀ p ∈ (update_slots rpc latest jump spb flush nUpdates
        (load_from_csv c0 rows) fuelO fuelI fuelF).1,
      maxMaxSlot rows < p := by
  intro p hp
  have hne : rows ≠ [] := store_nonempty hstore
  rcases rows with _ | ⟨r0, rest⟩
  · exact absurd rfl hne
  · simp only [update_slots, load_from_csv, List.isEmpty_cons] at hp
    by_cases hup : maxMaxSlot (r0 :: rest) ≥ latest ∨
        maxMaxSlot (r0 :: rest) + jump > latest
    · rw [if_pos hup] at hp
      simp at hp
    · rw [if_neg hup] at hp
      exact usOuter_probes_gt rpc spb latest jump nUpdates flush fuelI fuelF
        (maxMaxSlot (r0 :: rest)) fuelO _ (maxMaxSlot (r0 :: rest)) _
        (Or.inr (le_refl _)) p hp

/-- Witness for C7: with the persisted slotA row (cursor 1), a concrete
catch-up pass probes 3 first, and 3 is strictly above the cursor. -/
theorem C7_resume_probes_above_cursor_witness :
    maxMaxSlot [dupAggRow] < 3 :=
  C7_resume_probes_above_cursor storedChain freshChain [dupAggRow]
    (by decide) rpcEmpty 10 2 1 true (-1) 3 5 5 3 (by decide)

/-- Witness for C9: on a fresh chain (table None) the pass fails with
NotInitialized, probes nothing and leaves the chain unchanged; on a loaded
chain a completed pass is not a NotInitialized failure. -/
theorem C9_update_slots_not_initialized_witness :
    (update_slots rpcEmpty 10 2 1 true (-1) freshChain 3 5 5 =
      ([], some (freshChain, some RunError.notInitialized))) ∧
    ((load_from_csv freshChain [dupAggRow], (none : Option RunError)).2 ≠
      some RunError.notInitialized) := by
  constructor
  · exact (C9_update_slots_not_initialized_iff rpcEmpty 10 2 1 true (-1)
      freshChain 3 5 5).1 (Or.inl rfl)
  · exact (C9_update_slots_not_initialized_iff rpcEmpty 1 2 1 true (-1)
      (load_from_csv freshChain [dupAggRow]) 3 5 5).2 [dupAggRow] rfl
      (by decide) (load_from_csv freshChain [dupAggRow], none) (by decide)

/-- C8 (code_bug evidence): backward exploration does not terminate on a
collaborator that reports every slot as missing.  With start 100, jump 1000,
latest slot 1000 and n_batches_to_explore 5, the gap-skip decrements the
shift while the probe is slot_number - shift, so the probe walks FORWARD
(100, 101, 102, ...) without bound: for every fuel budget the loop is still
running — it neither stops after the configured number of windows nor when
going below slot 1, contradicting the claimed termination. -/
theorem C8_explore_chain_backward_nonterminating :
    ∀ fuelO fuelI fuelF : Nat,
      (explore_chain rpcEmpty 1 1000 1000 5 100 false false freshChain
        fuelO fuelI fuelF).2 = none := by
  intro fuelO fuelI fuelF
  cases fuelO with
  | zero => rfl
  | succ f =>
    show (ecOuter rpcEmpty 1 1000 1000 5 false false fuelI fuelF
      freshChain 100 0 (f + 1)).2 = none
    simp only [ecOuter]
    rw [if_neg (by decide : ¬((0 : Int) = 5 ∨ (100 : Int) ≥ 1000))]
    rw [ecInner_empty_backward_stuck fuelF fuelI 0 (le_refl 0)]

end SolTrack
